import Mathlib

/-!
Verification development for the penguin-libs AAA subsystem
(`packages/python-aaa/src/penguin_aaa`): signing-key lifecycle, JWKS
serialisation, OIDC token issuance/validation, and the audit fan-out
emitter.  Each Python function of the core is shallowly embedded as an
executable Lean definition; randomness (key generation, uuid4 kids) is
threaded explicitly as entropy streams, timestamps are exact integer
microseconds, and fallible code returns `Except`/`Option`.
-/

namespace PenguinAAA

/-! ## JSON values and dictionaries

JWT payloads are JSON objects.  We model the JSON values that occur in
this subsystem: strings, integers, lists of strings, string-keyed
objects, null, and (post-conversion) datetime objects, which Python
code inserts into the payload dict before pydantic validation.
Datetimes are exact integer microseconds since the epoch. -/

inductive JsonVal where
  | str (s : String)
  | int (n : Int)
  | list (xs : List String)
  | obj (kvs : List (String × String))
  | dt (us : Int)
  | nullv
  deriving DecidableEq, Repr

abbrev Dict := List (String × JsonVal)

/-- Python `payload.get(key)`: the value bound to the first occurrence of
`key`, if any. -/
def dget (d : Dict) (k : String) : Option JsonVal :=
  match d with
  | [] => none
  | (k', v) :: rest => if k' = k then some v else dget rest k

/-- Python `payload[key] = v`: replace the binding of `key` in place if
present, else append it. -/
def dset (d : Dict) (k : String) (v : JsonVal) : Dict :=
  match d with
  | [] => [(k, v)]
  | (k', v') :: rest => if k' = k then (k, v) :: rest else (k', v') :: dset rest k v

/-! ## Big-endian byte encoding and base64url

Models Python `int.to_bytes(length, "big")` (which raises `OverflowError`
when the value does not fit, hence `Option`) and the repo's `_b64url`
helper (`base64.urlsafe_b64encode` with padding stripped). -/

/-- Python `int.bit_length()`. -/
def bitLength (n : Nat) : Nat :=
  if n = 0 then 0 else Nat.log 2 n + 1

/-- The big-endian bytes of `v`, exactly `len` of them (most significant
first); callers must ensure `v < 256 ^ len`. -/
def bytesBE (v : Nat) : Nat → List Nat
  | 0 => []
  | len + 1 => (v / 256 ^ len) % 256 :: bytesBE v len

/-- Embeds `_int_to_bytes` / Python `value.to_bytes(length, "big")`:
`none` models the `OverflowError` raised when the value does not fit. -/
def intToBytes (value length : Nat) : Option (List Nat) :=
  if value < 256 ^ length then some (bytesBE value length) else none

/-- Character `i` (0 ≤ i < 64) of the base64url alphabet. -/
def b64charAt (i : Nat) : Char :=
  if i < 26 then Char.ofNat (65 + i)
  else if i < 52 then Char.ofNat (97 + (i - 26))
  else if i < 62 then Char.ofNat (48 + (i - 52))
  else if i = 62 then Char.ofNat 45
  else Char.ofNat 95

/-- Base64url encoding of a byte list, 3 input bytes per 4 output
characters, with the trailing `=` padding stripped. -/
def b64urlChars : List Nat → List Char
  | [] => []
  | [a] => [b64charAt (a / 4), b64charAt (a % 4 * 16)]
  | [a, b] => [b64charAt (a / 4), b64charAt (a % 4 * 16 + b / 16), b64charAt (b % 16 * 4)]
  | a :: b :: c :: rest =>
      b64charAt (a / 4) :: b64charAt (a % 4 * 16 + b / 16) ::
        b64charAt (b % 16 * 4 + c / 64) :: b64charAt (c % 64) :: b64urlChars rest

/-- Embeds `_b64url`: base64url-encode bytes without padding. -/
def _b64url (bytes : List Nat) : String :=
  String.mk (b64urlChars bytes)

/-! ## Key material

`cryptography` RSA/EC key objects.  Only the public numbers matter for
JWK serialisation; the private half is symbolic (signatures are modelled
as identifying their signing key, see `jwtDecode` below). -/

inductive Curve where
  | secp256r1
  | secp384r1
  | secp521r1
  | secp192r1
  deriving DecidableEq, Repr

/-- Python `curve.name`. -/
def Curve.cname : Curve → String
  | .secp256r1 => "secp256r1"
  | .secp384r1 => "secp384r1"
  | .secp521r1 => "secp521r1"
  | .secp192r1 => "secp192r1"

inductive PrivateKey where
  | rsa (n e : Nat)
  | ec (c : Curve) (x y : Nat)
  deriving DecidableEq, Repr

inductive PublicKey where
  | rsa (n e : Nat)
  | ec (c : Curve) (x y : Nat)
  deriving DecidableEq, Repr

/-- Python `private_key.public_key()`. -/
def publicOf : PrivateKey → PublicKey
  | .rsa n e => .rsa n e
  | .ec c x y => .ec c x y

/-! ## JWK serialisation (`crypto/jwks.py`) -/

/-- Embeds `_rsa_to_jwk`: RSA public numbers to a JWK dict.  `key.key_size`
is the modulus bit length; `n` is padded to the key byte length, `e` to
its minimal byte length. -/
def _rsa_to_jwk (n e : Nat) (kid alg : String) : Option Dict := do
  let key_size_bytes := (bitLength n + 7) / 8
  let nb ← intToBytes n key_size_bytes
  let eb ← intToBytes e ((bitLength e + 7) / 8)
  pure [("kty", .str "RSA"), ("use", .str "sig"), ("alg", .str alg), ("kid", .str kid),
        ("n", .str (_b64url nb)), ("e", .str (_b64url eb))]

/-- Embeds `_EC_CURVE_NAMES`: supported curve to (JWK `crv` name,
coordinate byte length); `none` for the unsupported-curve error. -/
def ecCurveNames : Curve → Option (String × Nat)
  | .secp256r1 => some ("P-256", 32)
  | .secp384r1 => some ("P-384", 48)
  | .secp521r1 => some ("P-521", 66)
  | _ => none

/-- Embeds `_ec_to_jwk`: EC public numbers to a JWK dict; `none` models
both the unsupported-curve `ValueError` and coordinate overflow. -/
def _ec_to_jwk (c : Curve) (x y : Nat) (kid alg : String) : Option Dict := do
  let (crv_name, coord_bytes) ← ecCurveNames c
  let xb ← intToBytes x coord_bytes
  let yb ← intToBytes y coord_bytes
  pure [("kty", .str "EC"), ("use", .str "sig"), ("alg", .str alg), ("kid", .str kid),
        ("crv", .str crv_name), ("x", .str (_b64url xb)), ("y", .str (_b64url yb))]

/-- Embeds `public_key_to_jwk`: dispatch on the key type. -/
def public_key_to_jwk (key : PublicKey) (kid alg : String) : Option Dict :=
  match key with
  | .rsa n e => _rsa_to_jwk n e kid alg
  | .ec c x y => _ec_to_jwk c x y kid alg

/-! ## Python string-method models

Models of the Python `str` methods the subsystem uses, implemented over
the character list of the string so that they are kernel-computable. -/

/-- Python `s.startswith(pre)`. -/
def pyStartswith (s pre : String) : Bool :=
  pre.data.isPrefixOf s.data

/-- Python `s.endswith(suf)`. -/
def pyEndswith (s suf : String) : Bool :=
  suf.data.reverse.isPrefixOf s.data.reverse

/-- Python `s.strip()`: remove leading and trailing whitespace. -/
def pyStrip (s : String) : String :=
  String.mk
    (((s.data.dropWhile Char.isWhitespace).reverse.dropWhile Char.isWhitespace).reverse)

/-- Python `s.split()` (no separator): split on whitespace runs,
discarding empty pieces. -/
def pySplitWs (s : String) : List String :=
  ((s.data.splitOnP Char.isWhitespace).map String.mk).filter (fun w => w ≠ "")

/-- Split `cs` at the first occurrence of `sep`, if any. -/
def findSplit (sep : List Char) : List Char → Option (List Char × List Char)
  | [] => if sep = [] then some ([], []) else none
  | c :: rest =>
      if sep.isPrefixOf (c :: rest) then some ([], (c :: rest).drop sep.length)
      else (findSplit sep rest).map (fun p => (c :: p.1, p.2))

/-! ## Key stores (`crypto/keystore.py`)

Key generation draws randomness from an explicit entropy stream
`ent : Nat → Nat × Nat` (for RSA the first component is the generated
2048-bit modulus, the public exponent is the fixed 65537; for EC the two
components are the public point coordinates).  `uuid.uuid4()` kid
generation is modelled as an injective stream `kidOf : Nat → String`;
both streams are indexed by the store's generation counter. -/

/-- Embeds `_generate_key`: dispatch on the algorithm string; the
`ValueError` for unsupported algorithms is the `.error` case.  `mat` is
the entropy consumed by the underlying generator. -/
def _generate_key (algorithm : String) (mat : Nat × Nat) : Except String PrivateKey :=
  if pyStartswith algorithm "RS" || pyStartswith algorithm "PS" then
    .ok (.rsa mat.1 65537)
  else if algorithm = "ES256" then .ok (.ec .secp256r1 mat.1 mat.2)
  else if algorithm = "ES384" then .ok (.ec .secp384r1 mat.1 mat.2)
  else if algorithm = "ES512" then .ok (.ec .secp521r1 mat.1 mat.2)
  else .error ("Cannot generate key for unsupported algorithm: " ++ algorithm)

/-- Whether `_generate_key` succeeds on this algorithm string. -/
def generatable (algorithm : String) : Bool :=
  pyStartswith algorithm "RS" || pyStartswith algorithm "PS" ||
    algorithm = "ES256" || algorithm = "ES384" || algorithm = "ES512"

/-- The key `_generate_key` produces when it succeeds. -/
def genKeyA (algorithm : String) (mat : Nat × Nat) : PrivateKey :=
  ((_generate_key algorithm mat).toOption).getD (.rsa 0 0)

/-- The property a generated key must satisfy for JWK serialisation to
succeed: EC coordinates fit their fixed coordinate width (true of every
real key on the curve); RSA moduli always fit their own byte length. -/
def KeyEncodable : PrivateKey → Prop
  | .rsa _ _ => True
  | .ec c x y =>
      match ecCurveNames c with
      | some (_, coord_bytes) => x < 256 ^ coord_bytes ∧ y < 256 ^ coord_bytes
      | none => False

/-- Embeds the state of `MemoryKeyStore`: the retained `(key, kid)` list
(newest last) plus the generation counter indexing the entropy streams. -/
structure MemoryKeyStore where
  algorithm : String
  keys : List (PrivateKey × String)
  counter : Nat
  deriving DecidableEq, Repr

/-- Embeds `MemoryKeyStore.rotate_key`: generate a key, append it with a
fresh kid, pop the oldest entry when more than `_MAX_KEYS = 3` are
retained. -/
def MemoryKeyStore.rotate_key (ent : Nat → Nat × Nat) (kidOf : Nat → String)
    (s : MemoryKeyStore) : Except String MemoryKeyStore :=
  match _generate_key s.algorithm (ent s.counter) with
  | .error e => .error e
  | .ok new_key =>
      let new_kid := kidOf s.counter
      let keys := s.keys ++ [(new_key, new_kid)]
      let keys := if keys.length > 3 then keys.tail else keys
      .ok { algorithm := s.algorithm, keys := keys, counter := s.counter + 1 }

/-- Embeds `MemoryKeyStore.__init__`: start empty, rotate once. -/
def MemoryKeyStore.init (algorithm : String) (ent : Nat → Nat × Nat)
    (kidOf : Nat → String) : Except String MemoryKeyStore :=
  MemoryKeyStore.rotate_key ent kidOf
    { algorithm := algorithm, keys := [], counter := 0 }

/-- Embeds `MemoryKeyStore.get_signing_key`: `self._keys[-1]`; `none`
models the `IndexError` on an empty store. -/
def MemoryKeyStore.get_signing_key (s : MemoryKeyStore) : Option (PrivateKey × String) :=
  s.keys.getLast?

/-- Embeds `MemoryKeyStore.get_jwks`: the `"keys"` list of the returned
JWKS dict, every retained key serialised through `public_key_to_jwk`;
`none` models the exception when any key fails to serialise. -/
def MemoryKeyStore.get_jwks (s : MemoryKeyStore) : Option (List Dict) :=
  s.keys.mapM (fun e => public_key_to_jwk (publicOf e.1) e.2 s.algorithm)

/-- Iterate `rotate_key` `n` more times after construction. -/
def MemoryKeyStore.afterRotations (algorithm : String) (ent : Nat → Nat × Nat)
    (kidOf : Nat → String) : Nat → Except String MemoryKeyStore
  | 0 => MemoryKeyStore.init algorithm ent kidOf
  | n + 1 =>
      match MemoryKeyStore.afterRotations algorithm ent kidOf n with
      | .error e => .error e
      | .ok s => MemoryKeyStore.rotate_key ent kidOf s

/-! ### File-backed key store

The filesystem is explicit state: `none` models an absent store file;
`some doc` a present file whose parsed JSON document is `doc`.  PEM
serialisation of private keys (external `cryptography` code) is modelled
as the identity on key material, so a `FileEntry` carries the key
itself. -/

structure FileEntry where
  kid : String
  pem : PrivateKey
  deriving DecidableEq, Repr

/-- A parsed store file: `data.get("keys", [])` distinguishes a missing
`"keys"` entry (`none`) from a present list. -/
structure FileDoc where
  keysEntry : Option (List FileEntry)
  deriving DecidableEq, Repr

structure FileKeyStore where
  algorithm : String
  keys : List (PrivateKey × String)
  counter : Nat
  file : Option FileDoc
  deriving DecidableEq, Repr

/-- Embeds `FileKeyStore._save`: rewrite the whole file with all retained
keys. -/
def FileKeyStore._save (s : FileKeyStore) : FileKeyStore :=
  { s with file := some ⟨some (s.keys.map (fun e => ⟨e.2, e.1⟩))⟩ }

/-- Embeds `FileKeyStore.rotate_key`: same append/evict step as the
in-memory store, followed by `_save`. -/
def FileKeyStore.rotate_key (ent : Nat → Nat × Nat) (kidOf : Nat → String)
    (s : FileKeyStore) : Except String FileKeyStore :=
  match _generate_key s.algorithm (ent s.counter) with
  | .error e => .error e
  | .ok new_key =>
      let new_kid := kidOf s.counter
      let keys := s.keys ++ [(new_key, new_kid)]
      let keys := if keys.length > 3 then keys.tail else keys
      .ok (FileKeyStore._save
        { algorithm := s.algorithm, keys := keys, counter := s.counter + 1, file := s.file })

/-- Embeds `FileKeyStore._load`: read the entries of `data.get("keys", [])`
into the in-memory list (`_load_private_key_from_pem` is the identity in
this model, and cannot fail since the key type is RSA/EC by
construction). -/
def FileKeyStore._load (algorithm : String) (doc : FileDoc) : FileKeyStore :=
  { algorithm := algorithm,
    keys := (doc.keysEntry.getD []).map (fun e => (e.pem, e.kid)),
    counter := 0, file := some doc }

/-- Embeds `FileKeyStore.__init__` / `_load_or_init`: load if the file
exists, else rotate once (which saves). -/
def FileKeyStore.construct (algorithm : String) (ent : Nat → Nat × Nat)
    (kidOf : Nat → String) (file : Option FileDoc) : Except String FileKeyStore :=
  match file with
  | some doc => .ok (FileKeyStore._load algorithm doc)
  | none =>
      FileKeyStore.rotate_key ent kidOf
        { algorithm := algorithm, keys := [], counter := 0, file := none }

/-- Embeds `FileKeyStore.get_signing_key`: `self._keys[-1]`. -/
def FileKeyStore.get_signing_key (s : FileKeyStore) : Option (PrivateKey × String) :=
  s.keys.getLast?

/-- Embeds `FileKeyStore.get_jwks` (identical body to the in-memory
variant). -/
def FileKeyStore.get_jwks (s : FileKeyStore) : Option (List Dict) :=
  s.keys.mapM (fun e => public_key_to_jwk (publicOf e.1) e.2 s.algorithm)

/-- Iterate `FileKeyStore.rotate_key` `n` more times after constructing
against an absent file. -/
def FileKeyStore.afterRotations (algorithm : String) (ent : Nat → Nat × Nat)
    (kidOf : Nat → String) : Nat → Except String FileKeyStore
  | 0 => FileKeyStore.construct algorithm ent kidOf none
  | n + 1 =>
      match FileKeyStore.afterRotations algorithm ent kidOf n with
      | .error e => .error e
      | .ok s => FileKeyStore.rotate_key ent kidOf s

/-! ## Hardening validators (`hardening/validators.py`)

`urllib.parse.urlparse` is external stdlib code; it is modelled here for
the common `scheme://host[:port]/path` shape these validators receive
(userinfo is stripped at the last `@`, the port after the first `:` of
the host part; bracketed IPv6 hosts are outside the model). -/

structure ParsedUrl where
  scheme : String
  netloc : String
  hostname : String
  deriving DecidableEq, Repr

/-- Model of `urllib.parse.urlparse` restricted to the fields the
validators read: `scheme`, `netloc`, `hostname` (lowercased). -/
def urlparse (url : String) : ParsedUrl :=
  match findSplit "://".data url.data with
  | none => ⟨"", "", ""⟩
  | some (schemeCs, after) =>
      let netlocCs := after.takeWhile (fun c => c ≠ '/')
      let hostPort := (netlocCs.splitOnP (fun c => c = '@')).getLastD []
      let hostCs := hostPort.takeWhile (fun c => c ≠ ':')
      ⟨String.mk (schemeCs.map Char.toLower), String.mk netlocCs,
        String.mk (hostCs.map Char.toLower)⟩

/-- Embeds `validate_https_url`: empty, malformed, or non-HTTPS
non-localhost URLs are rejected. -/
def validate_https_url (url field_name : String) : Except String Unit :=
  if url = "" ∨ pyStrip url = "" then
    .error (field_name ++ " must not be empty")
  else
    let parsed := urlparse url
    if parsed.scheme = "" ∨ parsed.netloc = "" then
      .error (field_name ++ " must be a fully-qualified URL")
    else
      let hostname := parsed.hostname
      let is_localhost :=
        hostname = "localhost" ∨ hostname = "127.0.0.1" ∨ hostname = "::1" ∨
          pyEndswith hostname ".localhost" = true
      if ¬ is_localhost ∧ parsed.scheme ≠ "https" then
        .error (field_name ++ " must use HTTPS for non-localhost URLs")
      else .ok ()

/-- Embeds `validate_algorithm`: `none` and `HS256` are always rejected,
then the allow-list is consulted. -/
def validate_algorithm (alg : String) (allowed : List String) : Except String Unit :=
  if alg = "none" ∨ alg = "HS256" then
    .error ("Algorithm " ++ alg ++ " is explicitly forbidden for security reasons")
  else if alg ∉ allowed then
    .error ("Algorithm " ++ alg ++ " is not in the permitted set")
  else .ok ()

/-! ## Core claim types (`authn/types.py`) -/

/-- Embeds `ALLOWED_RP_ALGORITHMS`. -/
def ALLOWED_RP_ALGORITHMS : List String :=
  ["RS256", "RS384", "RS512", "ES256", "ES384", "ES512", "PS256", "PS384", "PS512"]

/-- Embeds `ALLOWED_PROVIDER_ALGORITHMS`. -/
def ALLOWED_PROVIDER_ALGORITHMS : List String :=
  ["RS256", "RS384", "RS512", "ES256", "ES384", "ES512", "PS256", "PS384", "PS512"]

/-- Embeds `MAX_SUBJECT_LENGTH`. -/
def MAX_SUBJECT_LENGTH : Nat := 256

/-- Embeds the validated `Claims` pydantic model.  Timestamps are exact
integer microseconds since the epoch (the model of `datetime`). -/
structure Claims where
  sub : String
  iss : String
  aud : List String
  iat : Int
  exp : Int
  scope : List String
  roles : List String
  tenant : String
  teams : List String
  ext : List (String × String)
  deriving DecidableEq, Repr

/-- Embeds `Claims.model_validate` in pydantic strict mode on a decoded
JWT payload dict: exact types required (no coercion), `sub` bounded by
`MAX_SUBJECT_LENGTH` and non-empty after stripping, `iss` and `tenant`
non-empty after stripping, `roles`/`teams`/`ext` defaulting when absent,
unknown keys ignored. -/
def Claims.model_validate (d : Dict) : Except String Claims := do
  let sub ← match dget d "sub" with
    | some (.str s) =>
        if s.data.length > MAX_SUBJECT_LENGTH then .error "sub too long"
        else if pyStrip s = "" then .error "sub must not be empty or whitespace"
        else .ok s
    | _ => .error "sub missing or not a string"
  let iss ← match dget d "iss" with
    | some (.str s) =>
        if pyStrip s = "" then .error "iss must not be empty or whitespace" else .ok s
    | _ => .error "iss missing or not a string"
  let aud ← match dget d "aud" with
    | some (.list xs) => .ok xs
    | _ => .error "aud missing or not a list"
  let iat ← match dget d "iat" with
    | some (.dt t) => .ok t
    | _ => .error "iat missing or not a datetime"
  let exp ← match dget d "exp" with
    | some (.dt t) => .ok t
    | _ => .error "exp missing or not a datetime"
  let scope ← match dget d "scope" with
    | some (.list xs) => .ok xs
    | _ => .error "scope missing or not a list"
  let roles ← match dget d "roles" with
    | some (.list xs) => .ok xs
    | none => .ok []
    | _ => .error "roles not a list"
  let tenant ← match dget d "tenant" with
    | some (.str s) =>
        if pyStrip s = "" then .error "tenant must not be empty or whitespace" else .ok s
    | _ => .error "tenant missing or not a string"
  let teams ← match dget d "teams" with
    | some (.list xs) => .ok xs
    | none => .ok []
    | _ => .error "teams not a list"
  let ext ← match dget d "ext" with
    | some (.obj kvs) => .ok kvs
    | none => .ok []
    | _ => .error "ext not an object"
  pure { sub, iss, aud, iat, exp, scope, roles, tenant, teams, ext }

/-- A signed JWT in structural form: the header's `alg` and `kid`, the
payload dict, and the signature.  The signature of the external JWT
library is modelled symbolically as the signing key itself: verification
against a public key succeeds exactly when that key is the public half
of the signer (existential forgery and cross-key collisions are outside
the model). -/
structure SignedJWT where
  alg : String
  kid : String
  payload : Dict
  signer : PrivateKey
  deriving DecidableEq, Repr

/-- Embeds `TokenSet`.  The two signed tokens are kept in structural JWT
form (see `SignedJWT`); the refresh token is the opaque random string. -/
structure TokenSet where
  access_token : SignedJWT
  id_token : SignedJWT
  refresh_token : String
  expires_in : Int
  token_type : String := "Bearer"

/-! ## Configurations (`authn/oidc_provider.py`, `authn/oidc_rp.py`)

`timedelta` fields are exact integer microseconds. -/

structure OIDCProviderConfig where
  issuer : String
  audiences : List String
  algorithm : String
  token_ttl_us : Nat
  refresh_ttl_us : Nat
  deriving DecidableEq, Repr

/-- Embeds `OIDCProviderConfig.__post_init__`: URL check, algorithm
allow-list, non-empty audiences. -/
def OIDCProviderConfig.validate (c : OIDCProviderConfig) : Except String OIDCProviderConfig :=
  match validate_https_url c.issuer "issuer" with
  | .error e => .error e
  | .ok _ =>
      match validate_algorithm c.algorithm ALLOWED_PROVIDER_ALGORITHMS with
      | .error e => .error e
      | .ok _ =>
          if c.audiences = [] then .error "audiences must contain at least one entry"
          else .ok c

structure OIDCRPConfig where
  issuer_url : String
  client_id : String
  client_secret : String
  redirect_url : String
  scopes : List String
  algorithms : List String
  clock_skew_us : Nat
  deriving DecidableEq, Repr

/-- The `for alg in self.algorithms` allow-list loop of
`OIDCRPConfig.__post_init__`. -/
def checkRPAlgorithms : List String → Except String Unit
  | [] => .ok ()
  | alg :: rest =>
      if alg ∉ ALLOWED_RP_ALGORITHMS then .error ("Algorithm " ++ alg ++ " is not allowed")
      else checkRPAlgorithms rest

/-- Embeds `OIDCRPConfig.__post_init__`. -/
def OIDCRPConfig.validate (c : OIDCRPConfig) : Except String OIDCRPConfig :=
  match validate_https_url c.issuer_url "issuer_url" with
  | .error e => .error e
  | .ok _ =>
      match validate_https_url c.redirect_url "redirect_url" with
      | .error e => .error e
      | .ok _ =>
          match checkRPAlgorithms c.algorithms with
          | .error e => .error e
          | .ok _ => .ok c

/-! ## Token issuance (`authn/oidc_provider.py`)

Wall-clock time is an explicit parameter `nowUs` (exact integer
microseconds since the epoch, the model of `datetime.now(timezone.utc)`);
`int(dt.timestamp())` is microseconds divided by `1000000`.  The opaque
refresh token (`secrets.token_urlsafe(48)`) is an explicit entropy
parameter. -/

/-- The shared base payload built by `issue_token_set`. -/
def basePayload (cfg : OIDCProviderConfig) (claims : Claims) (nowUs : Nat) : Dict :=
  [("sub", .str claims.sub), ("iss", .str cfg.issuer), ("aud", .list cfg.audiences),
   ("iat", .int ((nowUs / 1000000 : Nat) : Int)), ("scope", .list claims.scope),
   ("roles", .list claims.roles), ("tenant", .str claims.tenant),
   ("teams", .list claims.teams), ("ext", .obj claims.ext)]

/-- Embeds `OIDCProvider.issue_token_set`: read the active signing key,
build the two payloads sharing `exp = int((now + token_ttl).timestamp())`
and differing in `token_use`, sign both with the active key (header
`kid`), and return the token set with
`expires_in = int(token_ttl.total_seconds())`. -/
def OIDCProvider.issue_token_set (cfg : OIDCProviderConfig) (ks : MemoryKeyStore)
    (claims : Claims) (nowUs : Nat) (refresh : String) : Except String TokenSet :=
  match ks.get_signing_key with
  | none => .error "list index out of range"
  | some sk =>
      let expTs : Int := ((nowUs + cfg.token_ttl_us) / 1000000 : Nat)
      let base_payload := basePayload cfg claims nowUs
      let access_payload :=
        dset (dset base_payload "exp" (.int expTs)) "token_use" (.str "access")
      let id_payload := dset (dset base_payload "exp" (.int expTs)) "token_use" (.str "id")
      let access_token : SignedJWT :=
        { alg := cfg.algorithm, kid := sk.2, payload := access_payload, signer := sk.1 }
      let id_token : SignedJWT :=
        { alg := cfg.algorithm, kid := sk.2, payload := id_payload, signer := sk.1 }
      .ok { access_token := access_token, id_token := id_token, refresh_token := refresh,
            expires_in := ((cfg.token_ttl_us / 1000000 : Nat) : Int) }

/-! ## Token validation (`authn/oidc_rp.py`) -/

/-- The body of the `for key in fields` loop of `_normalise_list_fields`:
absent or `None` becomes `[]`, a bare string is whitespace-split for
`scope` and wrapped as a singleton list otherwise; everything else (in
particular lists) is untouched. -/
def normStep (p : Dict) (key : String) : Dict :=
  match dget p key with
  | none => dset p key (.list [])
  | some .nullv => dset p key (.list [])
  | some (.str v) => dset p key (.list (if key = "scope" then pySplitWs v else [v]))
  | some _ => p

/-- Embeds `_normalise_list_fields`: apply `normStep` to each field in
order, mutating the payload in place. -/
def _normalise_list_fields (payload : Dict) (fields : List String) : Dict :=
  fields.foldl normStep payload

/-- The body of the `for field in ("iat", "exp")` conversion loop of
`validate_token`: a numeric Unix timestamp becomes a datetime. -/
def convStep (p : Dict) (f : String) : Dict :=
  match dget p f with
  | some (.int v) => dset p f (.dt (v * 1000000))
  | _ => p

/-- The `iat`/`exp` Unix-int-to-datetime conversion loop of
`validate_token`. -/
def convertTimestamps (payload : Dict) : Dict :=
  ["iat", "exp"].foldl convStep payload

/-- Model of external `jwt.decode` (PyJWT) with a required audience and
leeway: algorithm allow-list, symbolic signature check, `iat` not in the
future, `exp` not in the past (both with leeway, in integer seconds),
audience membership. -/
def jwtCheckIat (payload : Dict) (leewaySec nowSec : Int) : Except String Unit :=
  match dget payload "iat" with
  | some (.int t) =>
      if t > nowSec + leewaySec then .error "ImmatureSignatureError" else .ok ()
  | some _ => .error "InvalidIssuedAtError"
  | none => .ok ()

def jwtCheckExp (payload : Dict) (leewaySec nowSec : Int) : Except String Unit :=
  match dget payload "exp" with
  | some (.int t) =>
      if t < nowSec - leewaySec then .error "ExpiredSignatureError" else .ok ()
  | some _ => .error "DecodeError"
  | none => .ok ()

def jwtCheckAud (payload : Dict) (audience : String) : Except String Unit :=
  match dget payload "aud" with
  | some (.str a) => if a = audience then .ok () else .error "InvalidAudienceError"
  | some (.list xs) => if audience ∈ xs then .ok () else .error "InvalidAudienceError"
  | _ => .error "MissingRequiredClaimError"

def jwtDecode (tok : SignedJWT) (key : PublicKey) (algorithms : List String)
    (audience : String) (leewaySec nowSec : Int) : Except String Dict :=
  if tok.alg ∉ algorithms then
    .error "InvalidAlgorithmError"
  else if publicOf tok.signer ≠ key then
    .error "InvalidSignatureError"
  else
    match jwtCheckIat tok.payload leewaySec nowSec with
    | .error e => .error e
    | .ok _ =>
        match jwtCheckExp tok.payload leewaySec nowSec with
        | .error e => .error e
        | .ok _ =>
            match jwtCheckAud tok.payload audience with
            | .error e => .error e
            | .ok _ => .ok tok.payload

/-- The PyJWKClient's decoded view of a JWKS document: `kid` to public
key.  Base64url wire decoding performed by the external JWT library is
the inverse of the repo's JWK encoding, so the client is modelled on the
underlying public numbers directly. -/
abbrev JWKSClient := List (String × PublicKey)

/-- Model of `PyJWKClient.get_signing_key_from_jwt`: resolve the token
header's `kid` against the fetched JWKS. -/
def lookupKid (client : JWKSClient) (kid : String) : Option PublicKey :=
  match client with
  | [] => none
  | (k, pk) :: rest => if k = kid then some pk else lookupKid rest kid

/-- A raw encoded token as received on the wire: its length in bytes
(checked by the DoS guard before anything else) and its parsed
structure. -/
structure RawToken where
  rawLength : Nat
  jwt : SignedJWT

/-- Result of a `validate_token` call, instrumented with the number of
network-reaching calls made: discovery fetches and JWKS-client key
resolutions. -/
structure ValidateOutcome where
  result : Except String Claims
  discoveryCalls : Nat
  jwksClientCalls : Nat

/-- Embeds `OIDCRelyingParty.validate_token`.  `jwksClientQ` is the
cached `self._jwks_client` (`none` when not yet discovered), and
`discoverResult` what a triggered `discover()` would produce (the JWKS
client bound to the fetched `jwks_uri`, or a network/missing-field
error).  The outcome records how often discovery and the JWKS client
were invoked. -/
def OIDCRelyingParty.validate_token (cfg : OIDCRPConfig)
    (jwksClientQ : Option JWKSClient) (discoverResult : Except String JWKSClient)
    (tok : RawToken) (nowSec : Int) : ValidateOutcome :=
  if tok.rawLength > 8192 then
    ⟨.error "Token exceeds maximum allowed size of 8192 bytes", 0, 0⟩
  else
    let resolved : Except String JWKSClient × Nat :=
      match jwksClientQ with
      | some c => (.ok c, 0)
      | none => (discoverResult, 1)
    match resolved with
    | (.error e, dCalls) => ⟨.error e, dCalls, 0⟩
    | (.ok client, dCalls) =>
        match lookupKid client tok.jwt.kid with
        | none => ⟨.error "Unable to find a signing key that matches", dCalls, 1⟩
        | some signing_key =>
            let leewaySec : Int := ((cfg.clock_skew_us / 1000000 : Nat) : Int)
            match jwtDecode tok.jwt signing_key cfg.algorithms cfg.client_id leewaySec nowSec with
            | .error e => ⟨.error e, dCalls, 1⟩
            | .ok payload =>
                let payload := _normalise_list_fields payload ["aud", "scope", "roles", "teams"]
                let payload := convertTimestamps payload
                ⟨Claims.model_validate payload, dCalls, 1⟩

/-! ## Audit emitter (`audit/emitter.py`)

A sink's `emit` is modelled as a function from the event to `none`
(success) or `some exc` (the exception it raises).  `Emitter.emit` is
instrumented with the trace of per-sink calls it makes, in order. -/

abbrev Event := List (String × String)

abbrev Sink := Event → Option String

structure Emitter where
  sinks : List Sink

/-- Embeds `Emitter.__init__`: constructing with zero sinks is an
error. -/
def Emitter.construct (sinks : List Sink) : Except String Emitter :=
  if sinks.isEmpty then .error "Emitter requires at least one sink" else .ok ⟨sinks⟩

/-- The observable outcome of one `Emitter.emit` call: the `(sink index,
event)` calls made in order, the collected per-sink errors, and the
`ExceptionGroup` raised (`some errs`) when every sink failed. -/
structure EmitResult where
  calls : List (Nat × Event)
  errors : List String
  raised : Option (List String)

/-- Embeds `Emitter.emit`: dispatch to every sink in registration order,
collecting errors; raise the aggregate exactly when the error count
equals the sink count (and is non-zero). -/
def Emitter.emit (e : Emitter) (ev : Event) : EmitResult :=
  let res := (e.sinks.enum).foldl
    (fun (st : List (Nat × Event) × List String) (s : Nat × Sink) =>
      (st.1 ++ [(s.1, ev)],
       match s.2 ev with
       | none => st.2
       | some exc => st.2 ++ [exc]))
    ([], [])
  { calls := res.1, errors := res.2,
    raised := if res.2 ≠ [] ∧ res.2.length = e.sinks.length then some res.2 else none }

/-! ## Derived views and fixtures used by the statements below -/

/-- The retained-key window after `n` rotations on a stream `f` of
generated `(key, kid)` pairs: the recurrence of the append/evict step of
`rotate_key`. -/
def wnd (f : Nat → PrivateKey × String) : Nat → List (PrivateKey × String)
  | 0 => [f 0]
  | n + 1 =>
      let l := wnd f n ++ [f (n + 1)]
      if l.length > 3 then l.tail else l

/-- The `(key, kid)` pair generation `i` produces for algorithm `alg`
under entropy `ent` and kid stream `kidOf`. -/
def genPair (alg : String) (ent : Nat → Nat × Nat) (kidOf : Nat → String)
    (i : Nat) : PrivateKey × String :=
  (genKeyA alg (ent i), kidOf i)

/-- The external PyJWKClient's decoded view of this store's published
JWKS: its wire decoding (external PyJWT code) inverts the repo's JWK
encoding, so the client resolves each `kid` to the underlying public
key. -/
def MemoryKeyStore.jwksClientOf (s : MemoryKeyStore) : JWKSClient :=
  s.keys.map (fun e => (e.2, publicOf e.1))

/-- The invariants the `Claims` pydantic model guarantees of a validated
claims instance, as far as issuance consumes them: `sub` non-empty after
stripping and bounded, `tenant` non-empty after stripping. -/
def ValidClaims (c : Claims) : Prop :=
  pyStrip c.sub ≠ "" ∧ c.sub.data.length ≤ MAX_SUBJECT_LENGTH ∧ pyStrip c.tenant ≠ ""

/-!
# Theorems

Helper lemmas first, then one theorem per claim (with witnesses and
counterexamples where required).
-/

@[simp]
theorem dget_dset_same (d : Dict) (k : String) (v : JsonVal) :
    dget (dset d k v) k = some v := by
  induction d with
  | nil => simp [dget, dset]
  | cons p rest ih =>
      by_cases h : p.1 = k
      · simp [dget, dset, h]
      · simp [dget, dset, h, ih]

theorem dget_dset_ne (d : Dict) (k k' : String) (v : JsonVal) (h : k ≠ k') :
    dget (dset d k v) k' = dget d k' := by
  induction d with
  | nil => simp [dget, dset, h]
  | cons p rest ih =>
      by_cases hp : p.1 = k
      · simp [dget, dset, hp, h]
      · simp [dget, dset, hp, ih]

@[simp]
theorem bytesBE_length (v len : Nat) : (bytesBE v len).length = len := by
  induction len with
  | zero => rfl
  | succ n ih => simp [bytesBE, ih]

theorem _generate_key_eq_ok (algorithm : String) (mat : Nat × Nat)
    (h : generatable algorithm = true) :
    _generate_key algorithm mat = .ok (genKeyA algorithm mat) := by
  simp only [generatable, Bool.or_eq_true, decide_eq_true_eq] at h
  rcases h with ((h | h) | h) | h
  · rcases h with h | h <;> simp [_generate_key, genKeyA, h, Except.toOption]
  · subst h; rfl
  · subst h; rfl
  · subst h; rfl

theorem _generate_key_eq_error (algorithm : String) (mat : Nat × Nat)
    (h : generatable algorithm = false) :
    _generate_key algorithm mat =
      .error ("Cannot generate key for unsupported algorithm: " ++ algorithm) := by
  simp only [generatable, Bool.or_eq_false_iff, decide_eq_false_iff_not] at h
  obtain ⟨⟨⟨h1, h2⟩, h3⟩, h4⟩ := h
  simp [_generate_key, h1.1, h1.2, h2, h3, h4]

/-- Every natural number fits in the ceiling of its bit length in
bytes (so Python `to_bytes` never overflows there). -/
theorem lt_pow256_ceil (n : Nat) : n < 256 ^ ((bitLength n + 7) / 8) := by
  unfold bitLength
  by_cases h : n = 0
  · simp [h]
  · simp only [h, if_false]
    have h1 : n < 2 ^ (Nat.log 2 n + 1) := Nat.lt_pow_succ_log_self (by norm_num) n
    have h2 : Nat.log 2 n + 1 ≤ 8 * ((Nat.log 2 n + 1 + 7) / 8) := by omega
    calc n < 2 ^ (Nat.log 2 n + 1) := h1
      _ ≤ 2 ^ (8 * ((Nat.log 2 n + 1 + 7) / 8)) := Nat.pow_le_pow_right (by norm_num) h2
      _ = 256 ^ ((Nat.log 2 n + 1 + 7) / 8) := by
          rw [Nat.pow_mul]

theorem _rsa_to_jwk_eq (n e : Nat) (kid alg : String) :
    _rsa_to_jwk n e kid alg =
      some [("kty", .str "RSA"), ("use", .str "sig"), ("alg", .str alg), ("kid", .str kid),
            ("n", .str (_b64url (bytesBE n ((bitLength n + 7) / 8)))),
            ("e", .str (_b64url (bytesBE e ((bitLength e + 7) / 8))))] := by
  simp [_rsa_to_jwk, intToBytes, lt_pow256_ceil n, lt_pow256_ceil e]

theorem _ec_to_jwk_eq (c : Curve) (x y : Nat) (kid alg crv : String) (cb : Nat)
    (hc : ecCurveNames c = some (crv, cb)) (hx : x < 256 ^ cb) (hy : y < 256 ^ cb) :
    _ec_to_jwk c x y kid alg =
      some [("kty", .str "EC"), ("use", .str "sig"), ("alg", .str alg), ("kid", .str kid),
            ("crv", .str crv), ("x", .str (_b64url (bytesBE x cb))),
            ("y", .str (_b64url (bytesBE y cb)))] := by
  simp [_ec_to_jwk, hc, intToBytes, hx, hy]

theorem public_key_to_jwk_isSome (k : PrivateKey) (kid alg : String) (h : KeyEncodable k) :
    (public_key_to_jwk (publicOf k) kid alg).isSome := by
  cases k with
  | rsa n e => simp [publicOf, public_key_to_jwk, _rsa_to_jwk_eq]
  | ec c x y =>
      cases c with
      | secp192r1 => simp [KeyEncodable, ecCurveNames] at h
      | secp256r1 =>
          simp only [KeyEncodable, ecCurveNames] at h
          simp [publicOf, public_key_to_jwk,
            _ec_to_jwk_eq .secp256r1 x y kid alg "P-256" 32 rfl h.1 h.2]
      | secp384r1 =>
          simp only [KeyEncodable, ecCurveNames] at h
          simp [publicOf, public_key_to_jwk,
            _ec_to_jwk_eq .secp384r1 x y kid alg "P-384" 48 rfl h.1 h.2]
      | secp521r1 =>
          simp only [KeyEncodable, ecCurveNames] at h
          simp [publicOf, public_key_to_jwk,
            _ec_to_jwk_eq .secp521r1 x y kid alg "P-521" 66 rfl h.1 h.2]

theorem public_key_to_jwk_kid_field (k : PrivateKey) (kid alg : String)
    (h : KeyEncodable k) :
    ∃ j, public_key_to_jwk (publicOf k) kid alg = some j ∧
      dget j "kid" = some (.str kid) := by
  cases k with
  | rsa n e =>
      exact ⟨_, _rsa_to_jwk_eq n e kid alg, by simp [dget]⟩
  | ec c x y =>
      cases c with
      | secp192r1 => simp [KeyEncodable, ecCurveNames] at h
      | secp256r1 =>
          simp only [KeyEncodable, ecCurveNames] at h
          exact ⟨_, _ec_to_jwk_eq .secp256r1 x y kid alg "P-256" 32 rfl h.1 h.2,
            by simp [dget]⟩
      | secp384r1 =>
          simp only [KeyEncodable, ecCurveNames] at h
          exact ⟨_, _ec_to_jwk_eq .secp384r1 x y kid alg "P-384" 48 rfl h.1 h.2,
            by simp [dget]⟩
      | secp521r1 =>
          simp only [KeyEncodable, ecCurveNames] at h
          exact ⟨_, _ec_to_jwk_eq .secp521r1 x y kid alg "P-521" 66 rfl h.1 h.2,
            by simp [dget]⟩

/-- C4: for every RSA public key, `public_key_to_jwk` returns exactly the
fields `kty = "RSA", use = "sig", alg, kid, n, e`, with `n` zero-padded
to the key's byte length and `e` at its minimal byte length, and never a
private field such as `d`; for every EC public key on P-256/P-384/P-521
it returns exactly `kty = "EC", use, alg, kid, crv, x, y` with the
correct curve name and `x`, `y` zero-padded to 32/48/66 bytes, and never
the private scalar. -/
theorem spec_C4 :
    (∀ (n e : Nat) (kid alg : String) (jwk : Dict),
       public_key_to_jwk (.rsa n e) kid alg = some jwk →
         jwk = [("kty", .str "RSA"), ("use", .str "sig"), ("alg", .str alg),
                ("kid", .str kid),
                ("n", .str (_b64url (bytesBE n ((bitLength n + 7) / 8)))),
                ("e", .str (_b64url (bytesBE e ((bitLength e + 7) / 8))))] ∧
         jwk.map Prod.fst = ["kty", "use", "alg", "kid", "n", "e"] ∧
         ∀ v, ("d", v) ∉ jwk) ∧
    (∀ (n e : Nat) (kid alg : String), (public_key_to_jwk (.rsa n e) kid alg).isSome) ∧
    (∀ (c : Curve) (x y : Nat) (kid alg crv : String) (cb : Nat),
       ecCurveNames c = some (crv, cb) → x < 256 ^ cb → y < 256 ^ cb →
       ∀ jwk, public_key_to_jwk (.ec c x y) kid alg = some jwk →
         jwk = [("kty", .str "EC"), ("use", .str "sig"), ("alg", .str alg),
                ("kid", .str kid), ("crv", .str crv),
                ("x", .str (_b64url (bytesBE x cb))), ("y", .str (_b64url (bytesBE y cb)))] ∧
         (bytesBE x cb).length = cb ∧ (bytesBE y cb).length = cb ∧
         jwk.map Prod.fst = ["kty", "use", "alg", "kid", "crv", "x", "y"] ∧
         ∀ v, ("d", v) ∉ jwk) ∧
    ecCurveNames .secp256r1 = some ("P-256", 32) ∧
    ecCurveNames .secp384r1 = some ("P-384", 48) ∧
    ecCurveNames .secp521r1 = some ("P-521", 66) := by
  refine ⟨?_, ?_, ?_, rfl, rfl, rfl⟩
  · intro n e kid alg jwk hj
    rw [show public_key_to_jwk (.rsa n e) kid alg = _rsa_to_jwk n e kid alg from rfl,
      _rsa_to_jwk_eq] at hj
    cases hj
    refine ⟨rfl, rfl, ?_⟩
    intro v hv
    have hm : "d" ∈ List.map Prod.fst
        [("kty", JsonVal.str "RSA"), ("use", JsonVal.str "sig"), ("alg", JsonVal.str alg),
         ("kid", JsonVal.str kid),
         ("n", JsonVal.str (_b64url (bytesBE n ((bitLength n + 7) / 8)))),
         ("e", JsonVal.str (_b64url (bytesBE e ((bitLength e + 7) / 8))))] :=
      List.mem_map_of_mem Prod.fst hv
    simp at hm
  · intro n e kid alg
    simp [show public_key_to_jwk (.rsa n e) kid alg = _rsa_to_jwk n e kid alg from rfl,
      _rsa_to_jwk_eq]
  · intro c x y kid alg crv cb hc hx hy jwk hj
    rw [show public_key_to_jwk (.ec c x y) kid alg = _ec_to_jwk c x y kid alg from rfl,
      _ec_to_jwk_eq c x y kid alg crv cb hc hx hy] at hj
    cases hj
    refine ⟨rfl, bytesBE_length x cb, bytesBE_length y cb, rfl, ?_⟩
    intro v hv
    have hm : "d" ∈ List.map Prod.fst
        [("kty", JsonVal.str "EC"), ("use", JsonVal.str "sig"), ("alg", JsonVal.str alg),
         ("kid", JsonVal.str kid), ("crv", JsonVal.str crv),
         ("x", JsonVal.str (_b64url (bytesBE x cb))),
         ("y", JsonVal.str (_b64url (bytesBE y cb)))] :=
      List.mem_map_of_mem Prod.fst hv
    simp at hm

/-- Witness for C4 at a concrete RSA key (n = 5, e = 65537) and a
concrete P-256 key (x = 2, y = 3). -/
theorem spec_C4_witness :
    (public_key_to_jwk (.rsa 5 65537) "k1" "RS256" =
       some [("kty", .str "RSA"), ("use", .str "sig"), ("alg", .str "RS256"),
             ("kid", .str "k1"),
             ("n", .str (_b64url (bytesBE 5 ((bitLength 5 + 7) / 8)))),
             ("e", .str (_b64url (bytesBE 65537 ((bitLength 65537 + 7) / 8))))]) ∧
    ∀ jwk, public_key_to_jwk (.ec .secp256r1 2 3) "k2" "ES256" = some jwk →
      jwk = [("kty", .str "EC"), ("use", .str "sig"), ("alg", .str "ES256"),
             ("kid", .str "k2"), ("crv", .str "P-256"),
             ("x", .str (_b64url (bytesBE 2 32))), ("y", .str (_b64url (bytesBE 3 32)))] ∧
      (bytesBE 2 32).length = 32 ∧ (bytesBE 3 32).length = 32 ∧
      jwk.map Prod.fst = ["kty", "use", "alg", "kid", "crv", "x", "y"] ∧
      ∀ v, ("d", v) ∉ jwk := by
  constructor
  · exact _rsa_to_jwk_eq 5 65537 "k1" "RS256"
  · intro jwk hj
    exact spec_C4.2.2.1 .secp256r1 2 3 "k2" "ES256" "P-256" 32 rfl (by norm_num)
      (by norm_num) jwk hj

theorem emit_foldl (ev : Event) (sinks : List Sink) :
    ∀ (k : Nat) (acc : List (Nat × Event) × List String),
      (List.enumFrom k sinks).foldl
          (fun (st : List (Nat × Event) × List String) (s : Nat × Sink) =>
            (st.1 ++ [(s.1, ev)],
             match s.2 ev with
             | none => st.2
             | some exc => st.2 ++ [exc]))
          acc
        = (acc.1 ++ (List.range' k sinks.length).map (fun i => (i, ev)),
           acc.2 ++ sinks.filterMap (fun s => s ev)) := by
  induction sinks with
  | nil => intro k acc; simp [List.enumFrom, List.range']
  | cons s rest ih =>
      intro k acc
      simp only [List.enumFrom, List.foldl_cons, List.length_cons, List.range',
        List.filterMap_cons]
      rw [ih]
      cases hs : s ev with
      | none => simp
      | some exc => simp

theorem Emitter.emit_eq (em : Emitter) (ev : Event) :
    em.emit ev =
      { calls := (List.range em.sinks.length).map (fun i => (i, ev)),
        errors := em.sinks.filterMap (fun s => s ev),
        raised :=
          if (em.sinks.filterMap (fun s => s ev)) ≠ [] ∧
              (em.sinks.filterMap (fun s => s ev)).length = em.sinks.length
          then some (em.sinks.filterMap (fun s => s ev)) else none } := by
  unfold Emitter.emit
  rw [show (List.enum em.sinks) = List.enumFrom 0 em.sinks from rfl, emit_foldl]
  simp [List.range_eq_range']

theorem filterMap_length_lt {α β : Type} (f : α → Option β) (l : List α)
    (h : ∃ a ∈ l, f a = none) : (l.filterMap f).length < l.length := by
  induction l with
  | nil => simp at h
  | cons a rest ih =>
      rcases h with ⟨b, hb, hfb⟩
      rcases List.mem_cons.mp hb with rfl | hbr
      · rw [List.filterMap_cons, hfb]
        have := List.length_filterMap_le f rest
        simp; omega
      · rw [List.filterMap_cons]
        cases hfa : f a with
        | none =>
            have := List.length_filterMap_le f rest
            simp; omega
        | some v =>
            have := ih ⟨b, hbr, hfb⟩
            simp; omega

theorem filterMap_all_some {α β : Type} (f : α → Option β) (d : β) (l : List α)
    (h : ∀ a ∈ l, (f a).isSome) :
    l.filterMap f = l.map (fun a => (f a).getD d) := by
  induction l with
  | nil => simp
  | cons a rest ih =>
      have ha := h a (List.mem_cons_self a rest)
      cases hfa : f a with
      | none => rw [hfa] at ha; simp at ha
      | some v =>
          rw [List.filterMap_cons, List.map_cons, hfa]
          simp only [Option.getD_some]
          rw [ih (fun b hb => h b (List.mem_cons_of_mem a hb))]

/-- C5: an emitter constructed from at least one sink calls every sink
exactly once with the same event, in registration order, regardless of
failures; it raises nothing when at least one sink succeeds, and raises
the aggregate of every per-sink error when all sinks fail. -/
theorem spec_C5 : ∀ (sinks : List Sink) (em : Emitter) (ev : Event),
    Emitter.construct sinks = .ok em →
    em.sinks = sinks ∧
    (em.emit ev).calls = (List.range sinks.length).map (fun i => (i, ev)) ∧
    (em.emit ev).errors = sinks.filterMap (fun s => s ev) ∧
    ((∃ s ∈ sinks, s ev = none) → (em.emit ev).raised = none) ∧
    ((∀ s ∈ sinks, (s ev).isSome) →
       (em.emit ev).raised = some (sinks.map (fun s => (s ev).getD "")) ∧
       (em.emit ev).errors.length = sinks.length) := by
  intro sinks em ev hc
  have hne : sinks ≠ [] := by
    intro h
    subst h
    simp [Emitter.construct] at hc
  have hem : em = ⟨sinks⟩ := by
    unfold Emitter.construct at hc
    rw [if_neg (by simp [hne])] at hc
    cases hc
    rfl
  subst hem
  refine ⟨rfl, ?_, ?_, ?_, ?_⟩
  · rw [Emitter.emit_eq]
  · rw [Emitter.emit_eq]
  · intro hsucc
    rw [Emitter.emit_eq]
    simp only
    rw [if_neg]
    intro ⟨_, hlen⟩
    exact absurd hlen (Nat.ne_of_lt (filterMap_length_lt _ _ hsucc))
  · intro hfail
    rw [Emitter.emit_eq]
    have hmap := filterMap_all_some (fun s => s ev) "" sinks hfail
    simp only
    constructor
    · rw [if_pos, hmap]
      constructor
      · rw [hmap]
        simp [hne]
      · rw [hmap, List.length_map]
    · rw [hmap, List.length_map]

/-- Witness for C5: with a failing first sink and a succeeding second
sink nothing is raised and both sinks are called once in order; with two
failing sinks the aggregate of both errors is raised. -/
theorem spec_C5_witness :
    ((Emitter.mk [fun _ => some "boom1", fun _ => none]).emit []).calls
        = [(0, []), (1, [])] ∧
    ((Emitter.mk [fun _ => some "boom1", fun _ => none]).emit []).raised = none ∧
    ((Emitter.mk [fun _ => some "boom1", fun _ => some "boom2"]).emit []).raised
        = some ["boom1", "boom2"] := by
  have h1 := spec_C5 [fun _ => some "boom1", fun _ => none]
    ⟨[fun _ => some "boom1", fun _ => none]⟩ [] rfl
  have h2 := spec_C5 [fun _ => some "boom1", fun _ => some "boom2"]
    ⟨[fun _ => some "boom1", fun _ => some "boom2"]⟩ [] rfl
  refine ⟨?_, ?_, ?_⟩
  · rw [h1.2.1]; rfl
  · exact h1.2.2.2.1 ⟨_, List.mem_cons_of_mem _ (List.mem_cons_self _ _), rfl⟩
  · have := h2.2.2.2.2 (by
      intro s hs
      rcases List.mem_cons.mp hs with rfl | hs2
      · rfl
      · rcases List.mem_cons.mp hs2 with rfl | hs3
        · rfl
        · simp at hs3)
    rw [this.1]
    rfl

/-- C6: every raw token longer than 8192 bytes is rejected before any
cryptographic work: the outcome is the size error with zero discovery
fetches and zero JWKS-client invocations, whatever the configuration,
cached client, discovery behaviour, token content, or clock. -/
theorem spec_C6 : ∀ (cfg : OIDCRPConfig) (jwksClientQ : Option JWKSClient)
    (discoverResult : Except String JWKSClient) (tok : RawToken) (nowSec : Int),
    tok.rawLength > 8192 →
    OIDCRelyingParty.validate_token cfg jwksClientQ discoverResult tok nowSec =
      ⟨.error "Token exceeds maximum allowed size of 8192 bytes", 0, 0⟩ := by
  intro cfg jwksClientQ discoverResult tok nowSec h
  unfold OIDCRelyingParty.validate_token
  rw [if_pos h]

/-- Witness for C6: an 8193-byte token against a fully concrete relying
party with no cached JWKS client. -/
theorem spec_C6_witness :
    OIDCRelyingParty.validate_token
        ⟨"https://issuer.example", "client-1", "secret", "https://rp.example/cb",
         ["openid"], ["RS256"], 30000000⟩
        none (.ok [("kid0", .rsa 5 65537)])
        ⟨8193, ⟨"RS256", "kid0", [], .rsa 5 65537⟩⟩ 1000 =
      ⟨.error "Token exceeds maximum allowed size of 8192 bytes", 0, 0⟩ :=
  spec_C6 _ _ _ _ _ (by norm_num)

theorem checkRPAlgorithms_mem_error (l : List String) (a : String)
    (ha : a ∈ l) (hna : a ∉ ALLOWED_RP_ALGORITHMS) :
    ∃ e, checkRPAlgorithms l = .error e := by
  induction l with
  | nil => simp at ha
  | cons b rest ih =>
      unfold checkRPAlgorithms
      by_cases hb : b ∈ ALLOWED_RP_ALGORITHMS
      · rcases List.mem_cons.mp ha with rfl | har
        · exact absurd hb hna
        · rw [if_neg (by simp [hb])]
          exact ih har
      · rw [if_pos (by simp [hb])]
        exact ⟨_, rfl⟩

/-- C3: constructing a provider config with algorithm `none` or `HS256`,
or a relying-party config whose algorithm list contains `none` or
`HS256`, always fails validation, for every assignment of the remaining
fields. -/
theorem spec_C3 :
    (∀ c : OIDCProviderConfig, c.algorithm = "none" ∨ c.algorithm = "HS256" →
       ∃ e, OIDCProviderConfig.validate c = .error e) ∧
    (∀ c : OIDCRPConfig, "none" ∈ c.algorithms ∨ "HS256" ∈ c.algorithms →
       ∃ e, OIDCRPConfig.validate c = .error e) := by
  constructor
  · intro c halg
    have hforb : validate_algorithm c.algorithm ALLOWED_PROVIDER_ALGORITHMS =
        .error ("Algorithm " ++ c.algorithm ++
          " is explicitly forbidden for security reasons") := by
      unfold validate_algorithm
      rw [if_pos halg]
    unfold OIDCProviderConfig.validate
    cases hu : validate_https_url c.issuer "issuer" with
    | error e => exact ⟨e, rfl⟩
    | ok u =>
        refine ⟨"Algorithm " ++ c.algorithm ++
          " is explicitly forbidden for security reasons", ?_⟩
        simp [hforb]
  · intro c halg
    unfold OIDCRPConfig.validate
    cases hu : validate_https_url c.issuer_url "issuer_url" with
    | error e => exact ⟨e, rfl⟩
    | ok u =>
        cases hr : validate_https_url c.redirect_url "redirect_url" with
        | error e => exact ⟨e, rfl⟩
        | ok r =>
            have hmem : ∃ a, a ∈ c.algorithms ∧ a ∉ ALLOWED_RP_ALGORITHMS := by
              rcases halg with h | h
              · exact ⟨"none", h, by decide⟩
              · exact ⟨"HS256", h, by decide⟩
            rcases hmem with ⟨a, ha, hna⟩
            rcases checkRPAlgorithms_mem_error c.algorithms a ha hna with ⟨e, he⟩
            exact ⟨e, by simp [he]⟩

/-- Witness for C3: a provider config with algorithm `none` and a
relying-party config whose list contains `HS256`, all other fields
concrete and otherwise valid. -/
theorem spec_C3_witness :
    (∃ e, OIDCProviderConfig.validate
        ⟨"https://issuer.example", ["aud1"], "none", 900000000, 86400000000⟩ = .error e) ∧
    (∃ e, OIDCRPConfig.validate
        ⟨"https://issuer.example", "client-1", "secret", "https://rp.example/cb",
         ["openid"], ["RS256", "HS256"], 30000000⟩ = .error e) :=
  ⟨spec_C3.1 _ (Or.inl rfl),
   spec_C3.2 _ (Or.inr (by simp))⟩

/-- C7 counterexample: `"RS999"` is not in the supported algorithm set,
yet `_generate_key` silently produces an RSA key for it, and a
`MemoryKeyStore` constructs successfully with it — so generation does
not succeed only for supported algorithm strings. -/
theorem spec_C7_counterexample :
    (_generate_key "RS999" (5, 65537)).toOption = some (.rsa 5 65537) ∧
    "RS999" ∉ ALLOWED_PROVIDER_ALGORITHMS ∧
    (MemoryKeyStore.init "RS999" (fun i => (5 + i, 65537)) (fun _ => "kid0")).toOption
      = some ⟨"RS999", [(.rsa 5 65537, "kid0")], 1⟩ :=
  ⟨rfl, by decide, rfl⟩

/-- C7 (amended): key generation, and hence key store construction,
succeeds exactly for algorithm strings starting with `"RS"` or `"PS"` or
equal to `ES256`/`ES384`/`ES512` (the `generatable` predicate); for
every other algorithm string it raises the unsupported-algorithm error
and never silently produces a key. -/
theorem spec_C7_amended : ∀ (alg : String) (mat : Nat × Nat) (ent : Nat → Nat × Nat)
    (kidOf : Nat → String),
    ((∃ k, _generate_key alg mat = .ok k) ↔ generatable alg = true) ∧
    ((_generate_key alg mat =
        .error ("Cannot generate key for unsupported algorithm: " ++ alg)) ↔
       generatable alg = false) ∧
    ((∃ s, MemoryKeyStore.init alg ent kidOf = .ok s) ↔ generatable alg = true) := by
  intro alg mat ent kidOf
  cases hg : generatable alg with
  | true =>
      refine ⟨⟨fun _ => rfl, fun _ => ⟨_, _generate_key_eq_ok alg mat hg⟩⟩, ?_, ?_⟩
      · constructor
        · intro h
          rw [_generate_key_eq_ok alg mat hg] at h
          cases h
        · intro h
          cases h
      · refine ⟨fun _ => rfl, fun _ => ?_⟩
        refine ⟨⟨alg, [(genKeyA alg (ent 0), kidOf 0)], 1⟩, ?_⟩
        unfold MemoryKeyStore.init MemoryKeyStore.rotate_key
        rw [_generate_key_eq_ok alg _ hg]
        rfl
  | false =>
      refine ⟨?_, ⟨fun _ => rfl, fun _ => _generate_key_eq_error alg mat hg⟩, ?_⟩
      · constructor
        · intro ⟨k, hk⟩
          rw [_generate_key_eq_error alg mat hg] at hk
          cases hk
        · intro h
          cases h
      · constructor
        · intro ⟨s, hs⟩
          unfold MemoryKeyStore.init MemoryKeyStore.rotate_key at hs
          rw [_generate_key_eq_error alg _ hg] at hs
          cases hs
        · intro h
          cases h

theorem normStep_dget_ne (p : Dict) (key k' : String) (h : key ≠ k') :
    dget (normStep p key) k' = dget p k' := by
  unfold normStep
  cases hv : dget p key with
  | none => exact dget_dset_ne p key k' _ h
  | some v =>
      cases v with
      | str s => exact dget_dset_ne p key k' _ h
      | nullv => exact dget_dset_ne p key k' _ h
      | int n => rfl
      | list xs => rfl
      | obj kvs => rfl
      | dt us => rfl

theorem normStep_dget_self (p : Dict) (key : String) :
    dget (normStep p key) key =
      match dget p key with
      | none => some (.list [])
      | some .nullv => some (.list [])
      | some (.str v) => some (.list (if key = "scope" then pySplitWs v else [v]))
      | some v => some v := by
  unfold normStep
  cases hv : dget p key with
  | none => simp
  | some v => cases v <;> simp [hv]

/-- C8: for the fields `aud`, `scope`, `roles`, `teams` of a decoded JWT
payload, normalisation turns an absent or null value into the empty
list, splits a bare `scope` string on whitespace, wraps any other bare
string as a one-element list, and leaves list values unchanged. -/
theorem spec_C8 : ∀ (d : Dict) (k : String), k ∈ ["aud", "scope", "roles", "teams"] →
    ((dget d k = none ∨ dget d k = some .nullv) →
       dget (_normalise_list_fields d ["aud", "scope", "roles", "teams"]) k
         = some (.list [])) ∧
    (∀ s, dget d k = some (.str s) →
       dget (_normalise_list_fields d ["aud", "scope", "roles", "teams"]) k
         = some (.list (if k = "scope" then pySplitWs s else [s]))) ∧
    (∀ xs, dget d k = some (.list xs) →
       dget (_normalise_list_fields d ["aud", "scope", "roles", "teams"]) k
         = some (.list xs)) := by
  intro d k hk
  have hunf : _normalise_list_fields d ["aud", "scope", "roles", "teams"]
      = normStep (normStep (normStep (normStep d "aud") "scope") "roles") "teams" := rfl
  simp only [List.mem_cons, List.not_mem_nil, or_false] at hk
  rcases hk with rfl | rfl | rfl | rfl
  · have hch : dget (_normalise_list_fields d ["aud", "scope", "roles", "teams"]) "aud"
        = dget (normStep d "aud") "aud" := by
      rw [hunf, normStep_dget_ne _ "teams" "aud" (by decide),
        normStep_dget_ne _ "roles" "aud" (by decide),
        normStep_dget_ne _ "scope" "aud" (by decide)]
    refine ⟨?_, ?_, ?_⟩
    · intro h
      rcases h with h | h <;> rw [hch, normStep_dget_self, h]
    · intro s h
      rw [hch, normStep_dget_self, h]
    · intro xs h
      rw [hch, normStep_dget_self, h]
  · have hch : dget (_normalise_list_fields d ["aud", "scope", "roles", "teams"]) "scope"
        = dget (normStep (normStep d "aud") "scope") "scope" := by
      rw [hunf, normStep_dget_ne _ "teams" "scope" (by decide),
        normStep_dget_ne _ "roles" "scope" (by decide)]
    have hin : dget (normStep d "aud") "scope" = dget d "scope" :=
      normStep_dget_ne _ "aud" "scope" (by decide)
    refine ⟨?_, ?_, ?_⟩
    · intro h
      rcases h with h | h <;> rw [hch, normStep_dget_self, hin, h]
    · intro s h
      rw [hch, normStep_dget_self, hin, h]
    · intro xs h
      rw [hch, normStep_dget_self, hin, h]
  · have hch : dget (_normalise_list_fields d ["aud", "scope", "roles", "teams"]) "roles"
        = dget (normStep (normStep (normStep d "aud") "scope") "roles") "roles" := by
      rw [hunf, normStep_dget_ne _ "teams" "roles" (by decide)]
    have hin : dget (normStep (normStep d "aud") "scope") "roles" = dget d "roles" := by
      rw [normStep_dget_ne _ "scope" "roles" (by decide),
        normStep_dget_ne _ "aud" "roles" (by decide)]
    refine ⟨?_, ?_, ?_⟩
    · intro h
      rcases h with h | h <;> rw [hch, normStep_dget_self, hin, h]
    · intro s h
      rw [hch, normStep_dget_self, hin, h]
    · intro xs h
      rw [hch, normStep_dget_self, hin, h]
  · have hin : dget (normStep (normStep (normStep d "aud") "scope") "roles") "teams"
        = dget d "teams" := by
      rw [normStep_dget_ne _ "roles" "teams" (by decide),
        normStep_dget_ne _ "scope" "teams" (by decide),
        normStep_dget_ne _ "aud" "teams" (by decide)]
    refine ⟨?_, ?_, ?_⟩
    · intro h
      rcases h with h | h <;> rw [hunf, normStep_dget_self, hin, h]
    · intro s h
      rw [hunf, normStep_dget_self, hin, h]
    · intro xs h
      rw [hunf, normStep_dget_self, hin, h]

/-- Witness for C8: a payload with a bare whitespace-separated `scope`
string, a bare `aud` string, a null `roles`, and a list-valued `teams`. -/
theorem spec_C8_witness :
    (dget (_normalise_list_fields
        [("scope", .str "a  b"), ("aud", .str "x"), ("roles", .nullv),
         ("teams", .list ["t1", "t2"])]
        ["aud", "scope", "roles", "teams"]) "scope"
      = some (.list (if "scope" = "scope" then pySplitWs "a  b" else ["a  b"]))) ∧
    (dget (_normalise_list_fields
        [("scope", .str "a  b"), ("aud", .str "x"), ("roles", .nullv),
         ("teams", .list ["t1", "t2"])]
        ["aud", "scope", "roles", "teams"]) "scope" = some (.list ["a", "b"])) ∧
    (dget (_normalise_list_fields
        [("scope", .str "a  b"), ("aud", .str "x"), ("roles", .nullv),
         ("teams", .list ["t1", "t2"])]
        ["aud", "scope", "roles", "teams"]) "aud" = some (.list ["x"])) ∧
    (dget (_normalise_list_fields
        [("scope", .str "a  b"), ("aud", .str "x"), ("roles", .nullv),
         ("teams", .list ["t1", "t2"])]
        ["aud", "scope", "roles", "teams"]) "roles" = some (.list [])) ∧
    (dget (_normalise_list_fields
        [("scope", .str "a  b"), ("aud", .str "x"), ("roles", .nullv),
         ("teams", .list ["t1", "t2"])]
        ["aud", "scope", "roles", "teams"]) "teams" = some (.list ["t1", "t2"])) :=
  ⟨(spec_C8 _ "scope" (by simp)).2.1 "a  b" rfl, by decide, by decide, by decide, by decide⟩

/-- C9 counterexample: with `token_ttl` = 0.5 s (500000 µs) and `now` =
0.7 s after the epoch, issuance yields payloads with `iat = 0` and
`exp = 1` while `expires_in = int(token_ttl.total_seconds()) = 0`, so
`exp ≠ iat + token_ttl` in integer seconds — the claimed relation fails
for fractional-second TTLs. -/
theorem spec_C9_counterexample :
    ((OIDCProvider.issue_token_set
        ⟨"https://issuer.example", ["client-1"], "RS256", 500000, 0⟩
        ⟨"RS256", [(.rsa 5 65537, "kid0")], 1⟩
        ⟨"user-1", "https://issuer.example", ["client-1"], 0, 0, ["openid"], [],
         "acme", [], []⟩
        700000 "rt").toOption.map
        (fun ts => (dget ts.access_token.payload "iat",
                    dget ts.access_token.payload "exp", ts.expires_in)))
      = some (some (.int 0), some (.int 1), 0) ∧
    some (JsonVal.int 1) ≠ some (JsonVal.int (0 + 0)) :=
  ⟨by decide, by decide⟩

/-- C9 (amended): every issuance returns
`expires_in = int(token_ttl.total_seconds())`, payloads whose `iat` and
`exp` are the truncated timestamps of `now` and `now + token_ttl`
(so `exp = iat + expires_in` whenever the configured `token_ttl` is a
whole number of seconds), access and id payloads that differ only in the
`token_use` field, and JWT headers carrying the `kid` of
`get_signing_key()` at issuance time. -/
theorem spec_C9_amended : ∀ (cfg : OIDCProviderConfig) (ks : MemoryKeyStore)
    (claims : Claims) (nowUs : Nat) (refresh : String) (ts : TokenSet)
    (key : PrivateKey) (kid : String),
    ks.get_signing_key = some (key, kid) →
    OIDCProvider.issue_token_set cfg ks claims nowUs refresh = .ok ts →
    ts.expires_in = ((cfg.token_ttl_us / 1000000 : Nat) : Int) ∧
    dget ts.access_token.payload "iat" = some (.int ((nowUs / 1000000 : Nat) : Int)) ∧
    dget ts.access_token.payload "exp"
      = some (.int (((nowUs + cfg.token_ttl_us) / 1000000 : Nat) : Int)) ∧
    (cfg.token_ttl_us % 1000000 = 0 →
       dget ts.access_token.payload "exp"
         = some (.int (((nowUs / 1000000 : Nat) : Int) + ts.expires_in))) ∧
    (∀ k, k ≠ "token_use" →
       dget ts.access_token.payload k = dget ts.id_token.payload k) ∧
    dget ts.access_token.payload "token_use" = some (.str "access") ∧
    dget ts.id_token.payload "token_use" = some (.str "id") ∧
    ts.access_token.kid = kid ∧ ts.id_token.kid = kid ∧
    ts.access_token.alg = cfg.algorithm ∧ ts.id_token.alg = cfg.algorithm := by
  intro cfg ks claims nowUs refresh ts key kid hsk hiss
  unfold OIDCProvider.issue_token_set at hiss
  rw [hsk] at hiss
  cases hiss
  refine ⟨rfl, ?_, ?_, ?_, ?_, ?_, ?_, rfl, rfl, rfl, rfl⟩
  · rw [dget_dset_ne _ "token_use" "iat" _ (by decide),
      dget_dset_ne _ "exp" "iat" _ (by decide)]
    simp [basePayload, dget]
  · rw [dget_dset_ne _ "token_use" "exp" _ (by decide), dget_dset_same]
  · intro hwhole
    rw [dget_dset_ne _ "token_use" "exp" _ (by decide), dget_dset_same]
    obtain ⟨q, hq⟩ : ∃ q, cfg.token_ttl_us = 1000000 * q :=
      ⟨cfg.token_ttl_us / 1000000, by omega⟩
    have h1 : (nowUs + cfg.token_ttl_us) / 1000000 = nowUs / 1000000 + q := by
      rw [hq, Nat.mul_comm, Nat.add_mul_div_right _ _ (by norm_num : 0 < 1000000)]
    have h2 : cfg.token_ttl_us / 1000000 = q := by omega
    rw [h1, h2]
    push_cast
    ring_nf
  · intro k hk
    rw [dget_dset_ne _ "token_use" k _ (Ne.symm hk),
      dget_dset_ne _ "token_use" k _ (Ne.symm hk)]
  · rw [dget_dset_same]
  · rw [dget_dset_same]

/-- Witness for C9 (amended) at a whole-second TTL: `token_ttl` = 900 s
issued at `now` = 1000000000.25 s yields `expires_in = 900`,
`iat = 1000000000`, `exp = 1000000900`, and headers carrying the store's
active kid. -/
theorem spec_C9_amended_witness :
    (OIDCProvider.issue_token_set
        ⟨"https://issuer.example", ["client-1"], "RS256", 900000000, 0⟩
        ⟨"RS256", [(.rsa 5 65537, "kid0")], 1⟩
        ⟨"user-1", "https://issuer.example", ["client-1"], 0, 0, ["openid"], [],
         "acme", [], []⟩
        1000000000250000 "rt").toOption.map
      (fun ts => (ts.expires_in, dget ts.access_token.payload "iat",
                  dget ts.access_token.payload "exp",
                  dget ts.access_token.payload "token_use", ts.access_token.kid))
      = some (900, some (.int 1000000000), some (.int 1000000900),
              some (.str "access"), "kid0") := by
  have h := spec_C9_amended
    ⟨"https://issuer.example", ["client-1"], "RS256", 900000000, 0⟩
    ⟨"RS256", [(.rsa 5 65537, "kid0")], 1⟩
    ⟨"user-1", "https://issuer.example", ["client-1"], 0, 0, ["openid"], [],
     "acme", [], []⟩
    1000000000250000 "rt"
    ((OIDCProvider.issue_token_set
        ⟨"https://issuer.example", ["client-1"], "RS256", 900000000, 0⟩
        ⟨"RS256", [(.rsa 5 65537, "kid0")], 1⟩
        ⟨"user-1", "https://issuer.example", ["client-1"], 0, 0, ["openid"], [],
         "acme", [], []⟩
        1000000000250000 "rt").toOption.getD
      ⟨⟨"", "", [], .rsa 0 0⟩, ⟨"", "", [], .rsa 0 0⟩, "", 0, ""⟩)
    (.rsa 5 65537) "kid0" rfl rfl
  obtain ⟨h1, h2, h3, _, _, h6, _, h8, _⟩ := h
  have hE : (OIDCProvider.issue_token_set
      ⟨"https://issuer.example", ["client-1"], "RS256", 900000000, 0⟩
      ⟨"RS256", [(.rsa 5 65537, "kid0")], 1⟩
      ⟨"user-1", "https://issuer.example", ["client-1"], 0, 0, ["openid"], [],
       "acme", [], []⟩
      1000000000250000 "rt").toOption
      = some ((OIDCProvider.issue_token_set
      ⟨"https://issuer.example", ["client-1"], "RS256", 900000000, 0⟩
      ⟨"RS256", [(.rsa 5 65537, "kid0")], 1⟩
      ⟨"user-1", "https://issuer.example", ["client-1"], 0, 0, ["openid"], [],
       "acme", [], []⟩
      1000000000250000 "rt").toOption.getD
        ⟨⟨"", "", [], .rsa 0 0⟩, ⟨"", "", [], .rsa 0 0⟩, "", 0, ""⟩) := rfl
  rw [hE, Option.map_some', h1, h2, h3, h6, h8]
  rfl

theorem FileKeyStore_construct_none (alg : String) (ent : Nat → Nat × Nat)
    (kidOf : Nat → String) (s : FileKeyStore)
    (h : FileKeyStore.construct alg ent kidOf none = .ok s) :
    s.keys = [(genKeyA alg (ent 0), kidOf 0)] := by
  unfold FileKeyStore.construct FileKeyStore.rotate_key at h
  cases hg : _generate_key alg (ent 0) with
  | error e => rw [hg] at h; cases h
  | ok k =>
      rw [hg] at h
      cases h
      have : genKeyA alg (ent 0) = k := by
        unfold genKeyA
        rw [hg]
        rfl
      rw [this]
      rfl

/-- C10: constructing a `FileKeyStore` against an existing file whose
document has an empty or missing `"keys"` list succeeds with zero
retained keys and no initial rotation, so `get_signing_key()` fails
(out-of-range access, modelled as `none`); in general the
at-least-one-key guarantee after construction holds exactly when the
file is absent or its document carries at least one key entry. -/
theorem spec_C10 : ∀ (alg : String) (ent : Nat → Nat × Nat) (kidOf : Nat → String),
    (∀ doc : FileDoc, doc.keysEntry = some [] ∨ doc.keysEntry = none →
       ∃ s, FileKeyStore.construct alg ent kidOf (some doc) = .ok s ∧
         s.keys = [] ∧ s.get_signing_key = none) ∧
    (∀ (file : Option FileDoc) (s : FileKeyStore),
       FileKeyStore.construct alg ent kidOf file = .ok s →
       (s.keys ≠ [] ↔
          file = none ∨ ∃ doc, file = some doc ∧ doc.keysEntry.getD [] ≠ [])) := by
  intro alg ent kidOf
  constructor
  · intro doc hdoc
    refine ⟨FileKeyStore._load alg doc, rfl, ?_, ?_⟩
    · rcases hdoc with h | h <;> simp [FileKeyStore._load, h]
    · rcases hdoc with h | h <;>
        simp [FileKeyStore.get_signing_key, FileKeyStore._load, h]
  · intro file s hs
    cases file with
    | none =>
        have hk := FileKeyStore_construct_none alg ent kidOf s hs
        simp [hk]
    | some doc =>
        have hload : s = FileKeyStore._load alg doc := by
          unfold FileKeyStore.construct at hs
          cases hs
          rfl
        subst hload
        simp only [FileKeyStore._load]
        constructor
        · intro hne
          refine Or.inr ⟨doc, rfl, ?_⟩
          intro hempty
          rw [hempty] at hne
          simp at hne
        · rintro (h | ⟨doc2, hd2, hne⟩)
          · cases h
          · cases hd2
            intro hmap
            exact hne (by simpa using hmap)

/-- Witness for C10: an existing store file whose document is
`{"keys": []}`. -/
theorem spec_C10_witness :
    (FileKeyStore.construct "RS256" (fun i => (5 + i, 65537)) (fun _ => "kid0")
        (some ⟨some []⟩)).toOption.map (fun s => (s.keys, s.get_signing_key))
      = some ([], none) := by
  obtain ⟨s, hs, hk, hg⟩ :=
    (spec_C10 "RS256" (fun i => (5 + i, 65537)) (fun _ => "kid0")).1
      ⟨some []⟩ (Or.inl rfl)
  rw [hs]
  simp [Except.toOption, hk, hg]

theorem tail_append_left {α : Type} (l1 l2 : List α) (h : l1 ≠ []) :
    (l1 ++ l2).tail = l1.tail ++ l2 := by
  cases l1 with
  | nil => exact absurd rfl h
  | cons a t => rfl

theorem wnd_eq_range (f : Nat → PrivateKey × String) :
    ∀ n, wnd f n = ((List.range (n + 1)).drop (n + 1 - 3)).map f := by
  intro n
  induction n with
  | zero => rfl
  | succ n ih =>
      match n, ih with
      | 0, _ => rfl
      | 1, _ => rfl
      | m + 2, ih =>
          have hlen : ((List.range (m + 3)).drop m).length = 3 := by
            rw [List.length_drop, List.length_range]
            omega
          have hne : (List.range (m + 3)).drop m ≠ [] :=
            List.ne_nil_of_length_pos (by rw [hlen]; norm_num)
          have hw : wnd f (m + 3)
              = (wnd f (m + 2) ++ [f (m + 3)]).tail := by
            show (let l := wnd f (m + 2) ++ [f (m + 3)];
                  if l.length > 3 then l.tail else l) = _
            simp only
            rw [if_pos]
            rw [List.length_append, ih, List.length_map]
            have : m + 2 + 1 - 3 = m := by omega
            rw [this, hlen]
            norm_num
          rw [hw, ih]
          have hm : m + 2 + 1 - 3 = m := by omega
          rw [hm]
          rw [tail_append_left _ _ (by
            intro hc
            exact hne (List.map_eq_nil_iff.mp hc))]
          rw [← List.map_tail, List.tail_drop]
          have hsing : [f (m + 3)] = [m + 3].map f := rfl
          rw [hsing, ← List.map_append]
          have hdrop : (List.range (m + 3)).drop (m + 1) ++ [m + 3]
              = (List.range (m + 3 + 1)).drop (m + 1) := by
            conv_rhs => rw [List.range_succ]
            rw [List.drop_append_eq_append_drop]
            have h0 : m + 1 - (List.range (m + 3)).length = 0 := by
              rw [List.length_range]; omega
            rw [h0]
            rfl
          rw [hdrop]
          have : m + 2 + 1 + 1 - 3 = m + 1 := by omega
          rw [this]

theorem wnd_getLast (f : Nat → PrivateKey × String) :
    ∀ n, (wnd f n).getLast? = some (f n) := by
  intro n
  cases n with
  | zero => rfl
  | succ n =>
      show (let l := wnd f n ++ [f (n + 1)];
            if l.length > 3 then l.tail else l).getLast? = _
      simp only
      by_cases h : (wnd f n ++ [f (n + 1)]).length > 3
      · rw [if_pos h]
        have hne : wnd f n ≠ [] := by
          intro hc
          rw [hc] at h
          simp at h
        rw [tail_append_left _ _ hne, List.getLast?_concat]
      · rw [if_neg h, List.getLast?_concat]

theorem mapM_isSome {α β : Type} (f : α → Option β) (l : List α)
    (h : ∀ a ∈ l, (f a).isSome) : ∃ r, l.mapM f = some r ∧ r.length = l.length := by
  induction l with
  | nil => exact ⟨[], rfl, rfl⟩
  | cons a t ih =>
      obtain ⟨b, hb⟩ := Option.isSome_iff_exists.mp (h a (List.mem_cons_self a t))
      obtain ⟨r, hr, hlen⟩ := ih (fun x hx => h x (List.mem_cons_of_mem a hx))
      refine ⟨b :: r, ?_, by simp [hlen]⟩
      rw [List.mapM_cons, hb, hr]
      rfl

theorem mstore_rotate_eq (ent : Nat → Nat × Nat) (kidOf : Nat → String)
    (alg : String) (ks : List (PrivateKey × String)) (ctr : Nat)
    (hg : generatable alg = true) :
    MemoryKeyStore.rotate_key ent kidOf ⟨alg, ks, ctr⟩ =
      .ok ⟨alg, (let keys := ks ++ [(genKeyA alg (ent ctr), kidOf ctr)];
                 if keys.length > 3 then keys.tail else keys), ctr + 1⟩ := by
  unfold MemoryKeyStore.rotate_key
  rw [show (⟨alg, ks, ctr⟩ : MemoryKeyStore).algorithm = alg from rfl,
    show (⟨alg, ks, ctr⟩ : MemoryKeyStore).counter = ctr from rfl,
    _generate_key_eq_ok _ _ hg]

theorem mstore_afterRotations_eq (alg : String) (ent : Nat → Nat × Nat)
    (kidOf : Nat → String) (hg : generatable alg = true) :
    ∀ n, MemoryKeyStore.afterRotations alg ent kidOf n
      = .ok ⟨alg, wnd (genPair alg ent kidOf) n, n + 1⟩ := by
  intro n
  induction n with
  | zero =>
      show MemoryKeyStore.rotate_key ent kidOf ⟨alg, [], 0⟩ = _
      rw [mstore_rotate_eq ent kidOf alg [] 0 hg]
      rfl
  | succ n ih =>
      unfold MemoryKeyStore.afterRotations
      rw [ih]
      show MemoryKeyStore.rotate_key ent kidOf ⟨alg, wnd (genPair alg ent kidOf) n, n + 1⟩ = _
      rw [mstore_rotate_eq ent kidOf alg _ _ hg]
      rfl

theorem fstore_rotate_eq (ent : Nat → Nat × Nat) (kidOf : Nat → String)
    (alg : String) (ks : List (PrivateKey × String)) (ctr : Nat) (file : Option FileDoc)
    (hg : generatable alg = true) :
    FileKeyStore.rotate_key ent kidOf ⟨alg, ks, ctr, file⟩ =
      .ok (FileKeyStore._save
        ⟨alg, (let keys := ks ++ [(genKeyA alg (ent ctr), kidOf ctr)];
               if keys.length > 3 then keys.tail else keys), ctr + 1, file⟩) := by
  unfold FileKeyStore.rotate_key
  rw [show (⟨alg, ks, ctr, file⟩ : FileKeyStore).algorithm = alg from rfl,
    show (⟨alg, ks, ctr, file⟩ : FileKeyStore).counter = ctr from rfl,
    _generate_key_eq_ok _ _ hg]

theorem fstore_afterRotations_eq (alg : String) (ent : Nat → Nat × Nat)
    (kidOf : Nat → String) (hg : generatable alg = true) :
    ∀ n, FileKeyStore.afterRotations alg ent kidOf n
      = .ok ⟨alg, wnd (genPair alg ent kidOf) n, n + 1,
             some ⟨some ((wnd (genPair alg ent kidOf) n).map (fun e => ⟨e.2, e.1⟩))⟩⟩ := by
  intro n
  induction n with
  | zero =>
      show FileKeyStore.rotate_key ent kidOf ⟨alg, [], 0, none⟩ = _
      rw [fstore_rotate_eq ent kidOf alg [] 0 none hg]
      rfl
  | succ n ih =>
      unfold FileKeyStore.afterRotations
      rw [ih]
      show FileKeyStore.rotate_key ent kidOf
        ⟨alg, wnd (genPair alg ent kidOf) n, n + 1,
         some ⟨some ((wnd (genPair alg ent kidOf) n).map (fun e => ⟨e.2, e.1⟩))⟩⟩ = _
      rw [fstore_rotate_eq ent kidOf alg _ _ _ hg]
      rfl

theorem wnd_genPair_props (alg : String) (ent : Nat → Nat × Nat) (kidOf : Nat → String)
    (hinj : Function.Injective kidOf)
    (henc : ∀ i, KeyEncodable (genKeyA alg (ent i))) (n : Nat) :
    (wnd (genPair alg ent kidOf) n).length = min (n + 1) 3 ∧
    (wnd (genPair alg ent kidOf) n).getLast? = some (genKeyA alg (ent n), kidOf n) ∧
    ((wnd (genPair alg ent kidOf) n).map Prod.snd).Nodup ∧
    (∀ e ∈ wnd (genPair alg ent kidOf) n, KeyEncodable e.1) := by
  refine ⟨?_, wnd_getLast _ n, ?_, ?_⟩
  · rw [wnd_eq_range, List.length_map, List.length_drop, List.length_range]
    omega
  · rw [wnd_eq_range, List.map_map]
    have hmap : (Prod.snd ∘ genPair alg ent kidOf) = kidOf := rfl
    rw [hmap]
    exact ((List.nodup_range (n + 1)).sublist (List.drop_sublist _ _)).map hinj
  · intro e he
    rw [wnd_eq_range] at he
    obtain ⟨i, _, rfl⟩ := List.mem_map.mp he
    exact henc i

/-- C1: on a fresh store (memory or file backed, the latter with no
pre-existing file), construction and every further rotation keep between
one and three keys; the retained window after `n` extra rotations is
exactly the last `min (n+1) 3` generations in order, `get_signing_key`
returns the most recently generated key and kid, the retained kids are
pairwise distinct (fresh kid per rotation, assuming injective uuid4
draws), and the published JWKS always carries `min (n+1) 3 ≤ 3`
entries. -/
theorem spec_C1 : ∀ (alg : String) (ent : Nat → Nat × Nat) (kidOf : Nat → String),
    Function.Injective kidOf →
    generatable alg = true →
    (∀ i, KeyEncodable (genKeyA alg (ent i))) →
    ∀ n : Nat,
    (∃ s : MemoryKeyStore,
       MemoryKeyStore.afterRotations alg ent kidOf n = .ok s ∧
       s.keys = ((List.range (n + 1)).drop (n + 1 - 3)).map (genPair alg ent kidOf) ∧
       1 ≤ s.keys.length ∧ s.keys.length ≤ 3 ∧ s.keys.length = min (n + 1) 3 ∧
       s.get_signing_key = some (genKeyA alg (ent n), kidOf n) ∧
       (s.keys.map Prod.snd).Nodup ∧
       ∃ jwks, s.get_jwks = some jwks ∧ jwks.length = min (n + 1) 3) ∧
    (∃ s : FileKeyStore,
       FileKeyStore.afterRotations alg ent kidOf n = .ok s ∧
       s.keys = ((List.range (n + 1)).drop (n + 1 - 3)).map (genPair alg ent kidOf) ∧
       1 ≤ s.keys.length ∧ s.keys.length ≤ 3 ∧ s.keys.length = min (n + 1) 3 ∧
       s.get_signing_key = some (genKeyA alg (ent n), kidOf n) ∧
       (s.keys.map Prod.snd).Nodup ∧
       ∃ jwks, s.get_jwks = some jwks ∧ jwks.length = min (n + 1) 3) := by
  intro alg ent kidOf hinj hg henc n
  obtain ⟨hlen, hlast, hnd, hke⟩ := wnd_genPair_props alg ent kidOf hinj henc n
  have hjwk : ∀ e ∈ wnd (genPair alg ent kidOf) n,
      ((fun e : PrivateKey × String =>
          public_key_to_jwk (publicOf e.1) e.2 alg) e).isSome := by
    intro e he
    exact public_key_to_jwk_isSome e.1 e.2 alg (hke e he)
  obtain ⟨jwks, hjwks, hjlen⟩ := mapM_isSome _ _ hjwk
  constructor
  · refine ⟨⟨alg, wnd (genPair alg ent kidOf) n, n + 1⟩,
      mstore_afterRotations_eq alg ent kidOf hg n, ?_, ?_, ?_, ?_, ?_, ?_, ?_⟩
    · exact wnd_eq_range _ n
    · show 1 ≤ (wnd (genPair alg ent kidOf) n).length
      rw [hlen]; omega
    · show (wnd (genPair alg ent kidOf) n).length ≤ 3
      rw [hlen]; omega
    · exact hlen
    · exact hlast
    · exact hnd
    · exact ⟨jwks, hjwks, by rw [hjlen, hlen]⟩
  · refine ⟨⟨alg, wnd (genPair alg ent kidOf) n, n + 1,
        some ⟨some ((wnd (genPair alg ent kidOf) n).map (fun e => ⟨e.2, e.1⟩))⟩⟩,
      fstore_afterRotations_eq alg ent kidOf hg n, ?_, ?_, ?_, ?_, ?_, ?_, ?_⟩
    · exact wnd_eq_range _ n
    · show 1 ≤ (wnd (genPair alg ent kidOf) n).length
      rw [hlen]; omega
    · show (wnd (genPair alg ent kidOf) n).length ≤ 3
      rw [hlen]; omega
    · exact hlen
    · exact hlast
    · exact hnd
    · exact ⟨jwks, hjwks, by rw [hjlen, hlen]⟩

/-- Witness for C1: an RS256 store with concrete entropy and injective
kid stream, after 5 rotations beyond construction (6 generations): 3
retained keys, the newest signing key, and a 3-entry JWKS. -/
theorem spec_C1_witness :
    ∃ s : MemoryKeyStore,
      MemoryKeyStore.afterRotations "RS256" (fun i => (5 + i, 65537))
          (fun i => String.mk (List.replicate i 'a')) 5 = .ok s ∧
      s.keys.length = 3 ∧
      s.get_signing_key = some (.rsa 10 65537, String.mk (List.replicate 5 'a')) ∧
      ∃ jwks, s.get_jwks = some jwks ∧ jwks.length = 3 := by
  have hinj : Function.Injective (fun i => String.mk (List.replicate i 'a')) := by
    intro i j h
    have hd : List.replicate i 'a' = List.replicate j 'a' := congrArg String.data h
    have hl := congrArg List.length hd
    simpa using hl
  have henc : ∀ i, KeyEncodable (genKeyA "RS256" ((fun i => (5 + i, 65537)) i)) := by
    intro i
    show KeyEncodable (.rsa (5 + i) 65537)
    trivial
  obtain ⟨⟨s, h1, _, _, _, h5, h6, _, jwks, hj, hjl⟩, _⟩ :=
    spec_C1 "RS256" (fun i => (5 + i, 65537)) (fun i => String.mk (List.replicate i 'a'))
      hinj (by decide) henc 5
  exact ⟨s, h1, h5.trans (by norm_num), h6, jwks, hj, hjl.trans (by norm_num)⟩

theorem convStep_dget_ne (p : Dict) (f k' : String) (h : f ≠ k') :
    dget (convStep p f) k' = dget p k' := by
  unfold convStep
  cases hv : dget p f with
  | none => rfl
  | some v =>
      cases v with
      | int n => exact dget_dset_ne p f k' _ h
      | str s => rfl
      | list xs => rfl
      | obj kvs => rfl
      | dt us => rfl
      | nullv => rfl

theorem convStep_dget_int (p : Dict) (f : String) (v : Int)
    (h : dget p f = some (.int v)) :
    dget (convStep p f) f = some (.dt (v * 1000000)) := by
  unfold convStep
  rw [h, dget_dset_same]

theorem lookupKid_last (l : List (PrivateKey × String)) (key : PrivateKey) (kid : String)
    (hnd : (l.map Prod.snd).Nodup) (hlast : l.getLast? = some (key, kid)) :
    lookupKid (l.map (fun e => (e.2, publicOf e.1))) kid = some (publicOf key) := by
  induction l with
  | nil => cases hlast
  | cons a t ih =>
      cases t with
      | nil =>
          have ha : a = (key, kid) := by
            have : (a :: []).getLast? = some a := rfl
            rw [this] at hlast
            exact Option.some_injective _ hlast
          subst ha
          unfold lookupKid
          simp [dget]
      | cons b u =>
          have hlast2 : (b :: u).getLast? = some (key, kid) := by
            rwa [List.getLast?_cons_cons] at hlast
          have hnd2 : ((b :: u).map Prod.snd).Nodup := by
            rw [List.map_cons] at hnd
            exact hnd.of_cons
          have hne : a.2 ≠ kid := by
            intro heq
            have hmem : (key, kid) ∈ b :: u := List.mem_of_mem_getLast? hlast2
            have hkid : kid ∈ (b :: u).map Prod.snd :=
              List.mem_map_of_mem Prod.snd hmem
            rw [List.map_cons, List.nodup_cons] at hnd
            exact hnd.1 (heq ▸ hkid)
          show lookupKid ((a.2, publicOf a.1) :: (b :: u).map (fun e => (e.2, publicOf e.1)))
              kid = some (publicOf key)
          unfold lookupKid
          rw [if_neg hne]
          exact ih hnd2 hlast2

theorem validate_https_url_ok_strip (url f : String)
    (h : ∃ u, validate_https_url url f = .ok u) : pyStrip url ≠ "" := by
  obtain ⟨u, h⟩ := h
  unfold validate_https_url at h
  by_cases hc : url = "" ∨ pyStrip url = ""
  · rw [if_pos hc] at h
    cases h
  · push_neg at hc
    exact hc.2

theorem providerConfig_validate_ok_parts (cfg : OIDCProviderConfig)
    (h : OIDCProviderConfig.validate cfg = .ok cfg) :
    (∃ u, validate_https_url cfg.issuer "issuer" = .ok u) ∧ cfg.audiences ≠ [] := by
  unfold OIDCProviderConfig.validate at h
  cases hu : validate_https_url cfg.issuer "issuer" with
  | error e => rw [hu] at h; cases h
  | ok u =>
      rw [hu] at h
      refine ⟨⟨u, rfl⟩, ?_⟩
      cases ha : validate_algorithm cfg.algorithm ALLOWED_PROVIDER_ALGORITHMS with
      | error e => rw [ha] at h; cases h
      | ok v =>
          rw [ha] at h
          by_cases he : cfg.audiences = []
          · rw [if_pos he] at h
            cases h
          · exact he

theorem mapM_jwk_kids (alg : String) (l : List (PrivateKey × String))
    (h : ∀ e ∈ l, KeyEncodable e.1) :
    ∃ r, l.mapM (fun e => public_key_to_jwk (publicOf e.1) e.2 alg) = some r ∧
      r.map (fun d => dget d "kid") = l.map (fun e => some (.str e.2)) := by
  induction l with
  | nil => exact ⟨[], rfl, rfl⟩
  | cons a t ih =>
      obtain ⟨j, hj, hkid⟩ :=
        public_key_to_jwk_kid_field a.1 a.2 alg (h a (List.mem_cons_self a t))
      obtain ⟨r, hr, hmap⟩ := ih (fun x hx => h x (List.mem_cons_of_mem a hx))
      refine ⟨j :: r, ?_, ?_⟩
      · rw [List.mapM_cons, hj, hr]
        rfl
      · simp [hkid, hmap]

theorem issuedPayload_dget (cfg : OIDCProviderConfig) (claims : Claims) (nowUs : Nat)
    (expTs : Int) (tu : String) (AP : Dict)
    (hAP : AP = dset (dset (basePayload cfg claims nowUs) "exp" (.int expTs))
      "token_use" (.str tu)) :
    dget AP "sub" = some (.str claims.sub) ∧
    dget AP "iss" = some (.str cfg.issuer) ∧
    dget AP "aud" = some (.list cfg.audiences) ∧
    dget AP "iat" = some (.int ((nowUs / 1000000 : Nat) : Int)) ∧
    dget AP "scope" = some (.list claims.scope) ∧
    dget AP "roles" = some (.list claims.roles) ∧
    dget AP "tenant" = some (.str claims.tenant) ∧
    dget AP "teams" = some (.list claims.teams) ∧
    dget AP "ext" = some (.obj claims.ext) ∧
    dget AP "exp" = some (.int expTs) ∧
    dget AP "token_use" = some (.str tu) := by
  subst hAP
  refine ⟨?_, ?_, ?_, ?_, ?_, ?_, ?_, ?_, ?_, ?_, ?_⟩
  · rw [dget_dset_ne _ _ _ _ (by decide), dget_dset_ne _ _ _ _ (by decide)]; rfl
  · rw [dget_dset_ne _ _ _ _ (by decide), dget_dset_ne _ _ _ _ (by decide)]; rfl
  · rw [dget_dset_ne _ _ _ _ (by decide), dget_dset_ne _ _ _ _ (by decide)]; rfl
  · rw [dget_dset_ne _ _ _ _ (by decide), dget_dset_ne _ _ _ _ (by decide)]; rfl
  · rw [dget_dset_ne _ _ _ _ (by decide), dget_dset_ne _ _ _ _ (by decide)]; rfl
  · rw [dget_dset_ne _ _ _ _ (by decide), dget_dset_ne _ _ _ _ (by decide)]; rfl
  · rw [dget_dset_ne _ _ _ _ (by decide), dget_dset_ne _ _ _ _ (by decide)]; rfl
  · rw [dget_dset_ne _ _ _ _ (by decide), dget_dset_ne _ _ _ _ (by decide)]; rfl
  · rw [dget_dset_ne _ _ _ _ (by decide), dget_dset_ne _ _ _ _ (by decide)]; rfl
  · rw [dget_dset_ne _ _ _ _ (by decide), dget_dset_same]
  · rw [dget_dset_same]

theorem finalPayload_dget (cfg : OIDCProviderConfig) (claims : Claims) (nowUs : Nat)
    (expTs : Int) (tu : String) (AP P2 : Dict)
    (hAP : AP = dset (dset (basePayload cfg claims nowUs) "exp" (.int expTs))
      "token_use" (.str tu))
    (hP2 : P2 = convertTimestamps
      (_normalise_list_fields AP ["aud", "scope", "roles", "teams"])) :
    dget P2 "sub" = some (.str claims.sub) ∧
    dget P2 "iss" = some (.str cfg.issuer) ∧
    dget P2 "aud" = some (.list cfg.audiences) ∧
    dget P2 "iat" = some (.dt (((nowUs / 1000000 : Nat) : Int) * 1000000)) ∧
    dget P2 "exp" = some (.dt (expTs * 1000000)) ∧
    dget P2 "scope" = some (.list claims.scope) ∧
    dget P2 "roles" = some (.list claims.roles) ∧
    dget P2 "tenant" = some (.str claims.tenant) ∧
    dget P2 "teams" = some (.list claims.teams) ∧
    dget P2 "ext" = some (.obj claims.ext) := by
  obtain ⟨hsub, hiss, haud, hiat, hscope, hroles, htenant, hteams, hext, hexp, _⟩ :=
    issuedPayload_dget cfg claims nowUs expTs tu AP hAP
  have hP1 : _normalise_list_fields AP ["aud", "scope", "roles", "teams"]
      = normStep (normStep (normStep (normStep AP "aud") "scope") "roles") "teams" := rfl
  -- values at each key after normalisation
  have p1sub : dget (_normalise_list_fields AP ["aud", "scope", "roles", "teams"]) "sub"
      = some (.str claims.sub) := by
    rw [hP1, normStep_dget_ne _ _ _ (by decide), normStep_dget_ne _ _ _ (by decide),
      normStep_dget_ne _ _ _ (by decide), normStep_dget_ne _ _ _ (by decide), hsub]
  have p1iss : dget (_normalise_list_fields AP ["aud", "scope", "roles", "teams"]) "iss"
      = some (.str cfg.issuer) := by
    rw [hP1, normStep_dget_ne _ _ _ (by decide), normStep_dget_ne _ _ _ (by decide),
      normStep_dget_ne _ _ _ (by decide), normStep_dget_ne _ _ _ (by decide), hiss]
  have p1iat : dget (_normalise_list_fields AP ["aud", "scope", "roles", "teams"]) "iat"
      = some (.int ((nowUs / 1000000 : Nat) : Int)) := by
    rw [hP1, normStep_dget_ne _ _ _ (by decide), normStep_dget_ne _ _ _ (by decide),
      normStep_dget_ne _ _ _ (by decide), normStep_dget_ne _ _ _ (by decide), hiat]
  have p1exp : dget (_normalise_list_fields AP ["aud", "scope", "roles", "teams"]) "exp"
      = some (.int expTs) := by
    rw [hP1, normStep_dget_ne _ _ _ (by decide), normStep_dget_ne _ _ _ (by decide),
      normStep_dget_ne _ _ _ (by decide), normStep_dget_ne _ _ _ (by decide), hexp]
  have p1tenant : dget (_normalise_list_fields AP ["aud", "scope", "roles", "teams"]) "tenant"
      = some (.str claims.tenant) := by
    rw [hP1, normStep_dget_ne _ _ _ (by decide), normStep_dget_ne _ _ _ (by decide),
      normStep_dget_ne _ _ _ (by decide), normStep_dget_ne _ _ _ (by decide), htenant]
  have p1ext : dget (_normalise_list_fields AP ["aud", "scope", "roles", "teams"]) "ext"
      = some (.obj claims.ext) := by
    rw [hP1, normStep_dget_ne _ _ _ (by decide), normStep_dget_ne _ _ _ (by decide),
      normStep_dget_ne _ _ _ (by decide), normStep_dget_ne _ _ _ (by decide), hext]
  have p1aud : dget (_normalise_list_fields AP ["aud", "scope", "roles", "teams"]) "aud"
      = some (.list cfg.audiences) := by
    rw [hP1, normStep_dget_ne _ _ _ (by decide), normStep_dget_ne _ _ _ (by decide),
      normStep_dget_ne _ _ _ (by decide), normStep_dget_self, haud]
  have p1scope : dget (_normalise_list_fields AP ["aud", "scope", "roles", "teams"]) "scope"
      = some (.list claims.scope) := by
    rw [hP1, normStep_dget_ne _ _ _ (by decide), normStep_dget_ne _ _ _ (by decide),
      normStep_dget_self, normStep_dget_ne _ _ _ (by decide), hscope]
  have p1roles : dget (_normalise_list_fields AP ["aud", "scope", "roles", "teams"]) "roles"
      = some (.list claims.roles) := by
    rw [hP1, normStep_dget_ne _ _ _ (by decide), normStep_dget_self,
      normStep_dget_ne _ _ _ (by decide), normStep_dget_ne _ _ _ (by decide), hroles]
  have p1teams : dget (_normalise_list_fields AP ["aud", "scope", "roles", "teams"]) "teams"
      = some (.list claims.teams) := by
    rw [hP1, normStep_dget_self, normStep_dget_ne _ _ _ (by decide),
      normStep_dget_ne _ _ _ (by decide), normStep_dget_ne _ _ _ (by decide), hteams]
  have hP2c : P2 = convStep
      (convStep (_normalise_list_fields AP ["aud", "scope", "roles", "teams"]) "iat")
      "exp" := hP2
  subst hP2c
  refine ⟨?_, ?_, ?_, ?_, ?_, ?_, ?_, ?_, ?_, ?_⟩
  · rw [convStep_dget_ne _ _ _ (by decide), convStep_dget_ne _ _ _ (by decide), p1sub]
  · rw [convStep_dget_ne _ _ _ (by decide), convStep_dget_ne _ _ _ (by decide), p1iss]
  · rw [convStep_dget_ne _ _ _ (by decide), convStep_dget_ne _ _ _ (by decide), p1aud]
  · rw [convStep_dget_ne _ _ _ (by decide)]
    exact convStep_dget_int _ _ _ p1iat
  · refine convStep_dget_int _ _ _ ?_
    rw [convStep_dget_ne _ _ _ (by decide), p1exp]
  · rw [convStep_dget_ne _ _ _ (by decide), convStep_dget_ne _ _ _ (by decide), p1scope]
  · rw [convStep_dget_ne _ _ _ (by decide), convStep_dget_ne _ _ _ (by decide), p1roles]
  · rw [convStep_dget_ne _ _ _ (by decide), convStep_dget_ne _ _ _ (by decide), p1tenant]
  · rw [convStep_dget_ne _ _ _ (by decide), convStep_dget_ne _ _ _ (by decide), p1teams]
  · rw [convStep_dget_ne _ _ _ (by decide), convStep_dget_ne _ _ _ (by decide), p1ext]

theorem model_validate_issued (cfg : OIDCProviderConfig) (claims : Claims) (nowUs : Nat)
    (expTs : Int) (tu : String) (AP P2 : Dict)
    (hAP : AP = dset (dset (basePayload cfg claims nowUs) "exp" (.int expTs))
      "token_use" (.str tu))
    (hP2 : P2 = convertTimestamps
      (_normalise_list_fields AP ["aud", "scope", "roles", "teams"]))
    (hsub : pyStrip claims.sub ≠ "")
    (hlen : claims.sub.data.length ≤ MAX_SUBJECT_LENGTH)
    (htn : pyStrip claims.tenant ≠ "") (hiss : pyStrip cfg.issuer ≠ "") :
    Claims.model_validate P2 =
      .ok ⟨claims.sub, cfg.issuer, cfg.audiences,
           ((nowUs / 1000000 : Nat) : Int) * 1000000, expTs * 1000000,
           claims.scope, claims.roles, claims.tenant, claims.teams, claims.ext⟩ := by
  obtain ⟨f1, f2, f3, f4, f5, f6, f7, f8, f9, f10⟩ :=
    finalPayload_dget cfg claims nowUs expTs tu AP P2 hAP hP2
  have hlen2 : ¬(claims.sub.data.length > MAX_SUBJECT_LENGTH) := by omega
  have hlen3 : ¬(MAX_SUBJECT_LENGTH < claims.sub.length) := by
    have hd : claims.sub.length = claims.sub.data.length := rfl
    omega
  unfold Claims.model_validate
  simp only [f1, f2, f3, f4, f5, f6, f7, f8, f9, f10]
  simp [hsub, htn, hiss, hlen2, hlen3]
  rfl

theorem validate_token_cached (cfg : OIDCRPConfig) (client : JWKSClient)
    (dr : Except String JWKSClient) (tok : RawToken) (nowSec : Int)
    (hL : ¬ tok.rawLength > 8192) (pk : PublicKey)
    (hlk : lookupKid client tok.jwt.kid = some pk) :
    OIDCRelyingParty.validate_token cfg (some client) dr tok nowSec =
      match jwtDecode tok.jwt pk cfg.algorithms cfg.client_id
          ((cfg.clock_skew_us / 1000000 : Nat) : Int) nowSec with
      | .error e => ⟨.error e, 0, 1⟩
      | .ok payload =>
          ⟨Claims.model_validate (convertTimestamps (_normalise_list_fields payload
             ["aud", "scope", "roles", "teams"])), 0, 1⟩ := by
  unfold OIDCRelyingParty.validate_token
  rw [if_neg hL]
  simp only
  rw [hlk]

theorem jwtDecode_ok (alg kid : String) (payload : Dict) (key : PrivateKey)
    (algorithms : List String) (audience : String) (leewaySec nowSec : Int)
    (halg : alg ∈ algorithms)
    (hiat : jwtCheckIat payload leewaySec nowSec = .ok ())
    (hexp : jwtCheckExp payload leewaySec nowSec = .ok ())
    (haud : jwtCheckAud payload audience = .ok ()) :
    jwtDecode ⟨alg, kid, payload, key⟩ (publicOf key) algorithms audience leewaySec nowSec
      = .ok payload := by
  unfold jwtDecode
  rw [show (⟨alg, kid, payload, key⟩ : SignedJWT).alg = alg from rfl,
    show (⟨alg, kid, payload, key⟩ : SignedJWT).signer = key from rfl,
    show (⟨alg, kid, payload, key⟩ : SignedJWT).payload = payload from rfl]
  rw [if_neg (not_not_intro halg), if_neg (by simp)]
  simp only [hiat, hexp, haud]

/-- C2: a token issued with the key store's active signing key validates
successfully against the JWKS snapshot taken immediately after issuance
(the relying party resolves the header `kid` through the published JWKS,
the symbolic signature, expiry, and audience checks pass) and the
validated claims recover the original `sub`, `tenant`, and `roles`; the
snapshot itself serialises every retained key with its `kid`. -/
theorem spec_C2 : ∀ (cfg : OIDCProviderConfig) (rp : OIDCRPConfig) (s : MemoryKeyStore)
    (claims : Claims) (nowUs : Nat) (refresh : String) (key : PrivateKey) (kid : String)
    (L : Nat) (ts : TokenSet) (dr : Except String JWKSClient),
    OIDCProviderConfig.validate cfg = .ok cfg →
    ValidClaims claims →
    s.get_signing_key = some (key, kid) →
    (s.keys.map Prod.snd).Nodup →
    (∀ e ∈ s.keys, KeyEncodable e.1) →
    rp.client_id ∈ cfg.audiences →
    cfg.algorithm ∈ rp.algorithms →
    L ≤ 8192 →
    OIDCProvider.issue_token_set cfg s claims nowUs refresh = .ok ts →
    (∃ c : Claims,
       OIDCRelyingParty.validate_token rp (some s.jwksClientOf) dr
           ⟨L, ts.access_token⟩ ((nowUs / 1000000 : Nat) : Int)
         = ⟨.ok c, 0, 1⟩ ∧
       c.sub = claims.sub ∧ c.tenant = claims.tenant ∧ c.roles = claims.roles) ∧
    (∃ jwks, s.get_jwks = some jwks ∧
       jwks.map (fun d => dget d "kid")
         = s.jwksClientOf.map (fun e => some (.str e.1))) := by
  intro cfg rp s claims nowUs refresh key kid L ts dr
  intro hcfg hval hsk hnd henc haudmem halg hL hiss
  have hgl : s.keys.getLast? = some (key, kid) := hsk
  constructor
  · -- the round-trip conjunct
    set expTs : Int := (((nowUs + cfg.token_ttl_us) / 1000000 : Nat) : Int) with hexpTs
    set AP : Dict := dset (dset (basePayload cfg claims nowUs) "exp" (.int expTs))
      "token_use" (.str "access") with hAPdef
    have hat : ts.access_token = ⟨cfg.algorithm, kid, AP, key⟩ := by
      unfold OIDCProvider.issue_token_set at hiss
      rw [hsk] at hiss
      cases hiss
      rfl
    rw [hat]
    have hlk : lookupKid s.jwksClientOf kid = some (publicOf key) :=
      lookupKid_last s.keys key kid hnd hgl
    rw [validate_token_cached rp s.jwksClientOf dr
      ⟨L, ⟨cfg.algorithm, kid, AP, key⟩⟩ ((nowUs / 1000000 : Nat) : Int)
      (Nat.not_lt.mpr hL) (publicOf key) hlk]
    rw [show (⟨L, ⟨cfg.algorithm, kid, AP, key⟩⟩ : RawToken).jwt
      = ⟨cfg.algorithm, kid, AP, key⟩ from rfl]
    obtain ⟨dsub, diss, daud, diat, dscope, droles, dtenant, dteams, dext, dexp, dtu⟩ :=
      issuedPayload_dget cfg claims nowUs expTs "access" AP hAPdef
    have hiatok : jwtCheckIat AP ((rp.clock_skew_us / 1000000 : Nat) : Int)
        ((nowUs / 1000000 : Nat) : Int) = .ok () := by
      unfold jwtCheckIat
      rw [diat]
      have hni : ¬(((nowUs / 1000000 : Nat) : Int)
          > ((nowUs / 1000000 : Nat) : Int) + ((rp.clock_skew_us / 1000000 : Nat) : Int)) := by
        omega
      show (if ((nowUs / 1000000 : Nat) : Int) > ((nowUs / 1000000 : Nat) : Int)
            + ((rp.clock_skew_us / 1000000 : Nat) : Int)
          then (Except.error "ImmatureSignatureError" : Except String Unit)
          else Except.ok ()) = Except.ok ()
      rw [if_neg hni]
    have hexpok : jwtCheckExp AP ((rp.clock_skew_us / 1000000 : Nat) : Int)
        ((nowUs / 1000000 : Nat) : Int) = .ok () := by
      unfold jwtCheckExp
      rw [dexp]
      have hmono : nowUs / 1000000 ≤ (nowUs + cfg.token_ttl_us) / 1000000 :=
        Nat.div_le_div_right (Nat.le_add_right _ _)
      have hni : ¬(expTs
          < ((nowUs / 1000000 : Nat) : Int) - ((rp.clock_skew_us / 1000000 : Nat) : Int)) := by
        rw [hexpTs]
        omega
      show (if expTs < ((nowUs / 1000000 : Nat) : Int)
            - ((rp.clock_skew_us / 1000000 : Nat) : Int)
          then (Except.error "ExpiredSignatureError" : Except String Unit)
          else Except.ok ()) = Except.ok ()
      rw [if_neg hni]
    have haudok : jwtCheckAud AP rp.client_id = .ok () := by
      unfold jwtCheckAud
      rw [daud]
      show (if rp.client_id ∈ cfg.audiences then (Except.ok () : Except String Unit)
          else Except.error "InvalidAudienceError") = Except.ok ()
      rw [if_pos haudmem]
    rw [jwtDecode_ok cfg.algorithm kid AP key rp.algorithms rp.client_id
      ((rp.clock_skew_us / 1000000 : Nat) : Int) ((nowUs / 1000000 : Nat) : Int)
      halg hiatok hexpok haudok]
    obtain ⟨hu, _⟩ := providerConfig_validate_ok_parts cfg hcfg
    have hmv := model_validate_issued cfg claims nowUs expTs "access" AP
      (convertTimestamps (_normalise_list_fields AP ["aud", "scope", "roles", "teams"]))
      hAPdef rfl hval.1 hval.2.1 hval.2.2 (validate_https_url_ok_strip _ _ hu)
    refine ⟨⟨claims.sub, cfg.issuer, cfg.audiences,
      ((nowUs / 1000000 : Nat) : Int) * 1000000, expTs * 1000000,
      claims.scope, claims.roles, claims.tenant, claims.teams, claims.ext⟩, ?_, rfl, rfl, rfl⟩
    show (⟨Claims.model_validate
        (convertTimestamps (_normalise_list_fields AP ["aud", "scope", "roles", "teams"])),
        0, 1⟩ : ValidateOutcome) = _
    rw [hmv]
  · -- the JWKS snapshot conjunct
    obtain ⟨jwks, hj, hk⟩ := mapM_jwk_kids s.algorithm s.keys henc
    refine ⟨jwks, hj, ?_⟩
    rw [hk]
    unfold MemoryKeyStore.jwksClientOf
    rw [List.map_map]
    rfl

/-- Witness for C2: a concrete RS256 provider, store with one key, and
compatible relying party; issuance at `now` = 10^9 s and validation at
the same clock recover `sub = "user-1"`, `tenant = "acme"`,
`roles = ["admin"]` with one JWKS-client call and no discovery. -/
theorem spec_C2_witness :
    ∃ c : Claims,
      OIDCRelyingParty.validate_token
          ⟨"https://issuer.example", "client-1", "secret", "https://rp.example/cb",
           ["openid"], ["RS256"], 30000000⟩
          (some (MemoryKeyStore.jwksClientOf ⟨"RS256", [(.rsa 5 65537, "kid0")], 1⟩))
          (.error "no network")
          ⟨100, ((OIDCProvider.issue_token_set
              ⟨"https://issuer.example", ["client-1"], "RS256", 3600000000, 86400000000⟩
              ⟨"RS256", [(.rsa 5 65537, "kid0")], 1⟩
              ⟨"user-1", "https://issuer.example", ["client-1"], 0, 0, ["openid"],
               ["admin"], "acme", [], []⟩
              1000000000000000 "rt").toOption.getD
              ⟨⟨"", "", [], .rsa 0 0⟩, ⟨"", "", [], .rsa 0 0⟩, "", 0, ""⟩).access_token⟩
          1000000000
        = ⟨.ok c, 0, 1⟩ ∧
      c.sub = "user-1" ∧ c.tenant = "acme" ∧ c.roles = ["admin"] := by
  obtain ⟨⟨c, hval, h1, h2, h3⟩, _⟩ :=
    spec_C2
      ⟨"https://issuer.example", ["client-1"], "RS256", 3600000000, 86400000000⟩
      ⟨"https://issuer.example", "client-1", "secret", "https://rp.example/cb",
       ["openid"], ["RS256"], 30000000⟩
      ⟨"RS256", [(.rsa 5 65537, "kid0")], 1⟩
      ⟨"user-1", "https://issuer.example", ["client-1"], 0, 0, ["openid"],
       ["admin"], "acme", [], []⟩
      1000000000000000 "rt" (.rsa 5 65537) "kid0" 100
      ((OIDCProvider.issue_token_set
          ⟨"https://issuer.example", ["client-1"], "RS256", 3600000000, 86400000000⟩
          ⟨"RS256", [(.rsa 5 65537, "kid0")], 1⟩
          ⟨"user-1", "https://issuer.example", ["client-1"], 0, 0, ["openid"],
           ["admin"], "acme", [], []⟩
          1000000000000000 "rt").toOption.getD
          ⟨⟨"", "", [], .rsa 0 0⟩, ⟨"", "", [], .rsa 0 0⟩, "", 0, ""⟩)
      (.error "no network")
      rfl (by refine ⟨by decide, by decide, by decide⟩) rfl (by decide)
      (by
        intro e he
        simp only [List.mem_singleton] at he
        subst he
        exact trivial)
      (by decide) (by decide) (by decide) rfl
  exact ⟨c, hval, h1, h2, h3⟩

end PenguinAAA
